import Mathlib

/-!
# Verification of the NyaySaathi retrieval-and-answer core

This file is a shallow embedding, in Lean 4, of the retrieval orchestration
core of the NyaySaathi backend (`Backend/app/services/rag_engine.py`),
together with theorems settling the specification claims about it.

Modelling conventions:
* Python strings are Lean `String` (operations work on `List Char`);
  ASCII-only lowering/uppering mirrors the behaviour of `str.lower`/`str.upper`
  on the inputs the engine handles (non-ASCII scripts are unchanged by both).
* Similarity scores (Python floats) are modelled as rationals `ℚ`.
* Fallible external calls (embedder + vector store search, metadata store,
  LLM generation) are modelled with `Except Unit`; an `.error` value stands
  for a raised Python exception.  The LLM oracle abstracts the provider:
  outcomes are supplied per call irrespective of the prompt payload.
* Python dicts keyed by chunk identity are modelled as association lists in
  insertion order (Python dicts preserve insertion order), and `list.sort`
  with `reverse=True` is modelled by a stable descending insertion sort.
-/

set_option maxRecDepth 10000
set_option maxHeartbeats 4000000

namespace NyaySaathi

/-! ## Python-style string primitives -/

/-- Python whitespace characters (the ASCII set recognised by `str.strip`,
`str.split` and the regex class `\s`). -/
def pyWs (c : Char) : Bool :=
  c = ' ' || c = '\t' || c = '\n' || c = '\r' || c = '\x0b' || c = '\x0c'

/-- ASCII lower-casing of a character (as `str.lower` acts on ASCII;
the Indic/Arabic scripts handled by the engine are unchanged by both). -/
def pyLowerChar (c : Char) : Char :=
  if 'A' ≤ c ∧ c ≤ 'Z' then Char.ofNat (c.toNat + 32) else c

/-- ASCII upper-casing of a character. -/
def pyUpperChar (c : Char) : Char :=
  if 'a' ≤ c ∧ c ≤ 'z' then Char.ofNat (c.toNat - 32) else c

def pyLower (s : String) : String := ⟨s.data.map pyLowerChar⟩

def pyUpper (s : String) : String := ⟨s.data.map pyUpperChar⟩

/-- `str.strip()` (both ends, Python whitespace). -/
def pyStrip (s : String) : String :=
  ⟨((s.data.dropWhile pyWs).reverse.dropWhile pyWs).reverse⟩

/-- `str.lstrip()`. -/
def pyLStrip (s : String) : String := ⟨s.data.dropWhile pyWs⟩

/-- `str.rstrip()`. -/
def pyRStrip (s : String) : String := ⟨(s.data.reverse.dropWhile pyWs).reverse⟩

/-- `str.split()` with no argument: split on whitespace runs, no empties. -/
def pySplitWsAux : List Char → List Char → List String
  | [], acc => if acc = [] then [] else [⟨acc.reverse⟩]
  | c :: cs, acc =>
    if pyWs c then
      (if acc = [] then [] else [(⟨acc.reverse⟩ : String)]) ++ pySplitWsAux cs []
    else pySplitWsAux cs (c :: acc)

def pySplitWs (s : String) : List String := pySplitWsAux s.data []

/-- `str.isascii()`. -/
def pyIsAscii (s : String) : Bool := s.data.all (fun c => c.toNat < 128)

def isAsciiAlpha (c : Char) : Bool :=
  ('a' ≤ c ∧ c ≤ 'z') || ('A' ≤ c ∧ c ≤ 'Z')

def isAsciiDigit (c : Char) : Bool := '0' ≤ c ∧ c ≤ '9'

/-- Python `str.isalnum` approximation: ASCII alphanumerics, with every
non-ASCII code point treated as alphanumeric (the engine only meets Indic
and Arabic letters there, which are alphanumeric for Python). -/
def pyIsAlnum (c : Char) : Bool :=
  isAsciiAlpha c || isAsciiDigit c || c.toNat ≥ 128

/-- Substring containment over char lists (Python's `needle in hay`). -/
def listIsPrefix : List Char → List Char → Bool
  | [], _ => true
  | _ :: _, [] => false
  | a :: as, b :: bs => a = b && listIsPrefix as bs

def listContains (hay needle : List Char) : Bool :=
  match hay with
  | [] => needle = []
  | _ :: tl => listIsPrefix needle hay || listContains tl needle

/-- Python `needle in hay` for strings. -/
def strContains (hay needle : String) : Bool := listContains hay.data needle.data

/-- Python truthiness-based `a or b` on strings. -/
def pyOrStr (a b : String) : String := if a = "" then b else a

/-- First truthy value of a chain `x or y or z` over optional strings
(`None` and `""` are falsy). -/
def optTruthy (o : Option String) : Bool :=
  match o with
  | none => false
  | some s => s ≠ ""

def pyOrOpt (a b : Option String) : Option String := if optTruthy a then a else b

/-- Split a char list on a separator char, keeping empty pieces
(Python `str.split(sep)` / our model of re-splitting text into lines). -/
def splitOnChar (sep : Char) : List Char → List (List Char)
  | [] => [[]]
  | c :: cs =>
    let rest := splitOnChar sep cs
    if c = sep then [] :: rest
    else
      match rest with
      | [] => [[c]]
      | p :: ps => (c :: p) :: ps

def joinWithChar (sep : Char) : List (List Char) → List Char
  | [] => []
  | [p] => p
  | p :: ps => p ++ sep :: joinWithChar sep ps

/-- Python `str.splitlines()` on `\n`-separated text: trailing empty piece
is dropped, `"".splitlines() = []`. -/
def pySplitLines (s : String) : List String :=
  if s = "" then []
  else
    let parts := (splitOnChar '\n' s.data).map (fun l => (⟨l⟩ : String))
    if parts.getLast? = some "" then parts.dropLast else parts

end NyaySaathi

namespace NyaySaathi

/-! ## Data model

A `Hit` is one vector-store search result as produced by
`QdrantStore.search` (`vector_store.py`): payload fields `doc_id`,
`chunk_id`, `text` may be absent (`None`), `score` is always present, and
`meta` is the full payload (string-valued fields plus an optional `tags`
list). -/

/-- Chunk payload metadata: string fields looked up by exact key, plus the
`tags` list used by the reranker. -/
structure ChunkMeta where
  fields : List (String × String)
  tags : List String
  deriving DecidableEq, Repr

def ChunkMeta.get (m : ChunkMeta) (k : String) : Option String :=
  (m.fields.find? (fun p => p.1 = k)).map (fun p => p.2)

/-- A single search result record. -/
structure Hit where
  doc_id : Option String
  chunk_id : Option Int
  text : Option String
  score : ℚ
  meta : ChunkMeta
  deriving DecidableEq, Repr

/-- Chunk identity `(doc_id, chunk_id)` as used by the merge map. -/
abbrev ChunkKey := Option String × Option Int

def Hit.key (m : Hit) : ChunkKey := (m.doc_id, m.chunk_id)

/-- `(r.get("text", "") or "")`. -/
def Hit.textOrEmpty (m : Hit) : String := m.text.getD ""

/-- One row of the JSON metadata store (`metadata_store.list_documents`):
only the fields the orchestrator reads. -/
structure DocMeta where
  doc_id : Option String
  approved : Bool
  deriving DecidableEq, Repr

/-! ## Multi-query merge (`retrieve_context`, lines 215–222)

```python
merged: Dict[Tuple[str, int], Dict] = {}
for lst in (base_res, alt_res, kw_res):
    for m in lst or []:
        key = (m.get("doc_id"), m.get("chunk_id"))
        if key not in merged or m.get("score", 0.0) > merged[key].get("score", 0.0):
            merged[key] = m
results = list(merged.values())
```

A Python dict in insertion order is an association list; an update in place
keeps the key's position. -/

abbrev MergeMap := List (ChunkKey × Hit)

def lookupKey (acc : MergeMap) (k : ChunkKey) : Option Hit :=
  (acc.find? (fun p => p.1 = k)).map (fun p => p.2)

/-- Replace the (first) binding of key `k` in place. -/
def setKey (acc : MergeMap) (k : ChunkKey) (v : Hit) : MergeMap :=
  match acc with
  | [] => []
  | (k', v') :: t => if k' = k then (k, v) :: t else (k', v') :: setKey t k v

/-- One iteration of the merge loop body for record `m`. -/
def mergeStep (acc : MergeMap) (m : Hit) : MergeMap :=
  match lookupKey acc m.key with
  | none => acc ++ [(m.key, m)]
  | some old => if old.score < m.score then setKey acc m.key m else acc

/-- The merged dict over the three result lists, in encounter order. -/
def mergeHits (lists : List (List Hit)) : MergeMap :=
  lists.flatten.foldl mergeStep []

/-- `list(merged.values())`. -/
def mergeResults (lists : List (List Hit)) : List Hit :=
  (mergeHits lists).map Prod.snd

/-! ### Merge lemmas -/

theorem lookupKey_append_single (acc : MergeMap) (k k' : ChunkKey) (v : Hit) :
    lookupKey (acc ++ [(k', v)]) k =
      match lookupKey acc k with
      | some w => some w
      | none => if k' = k then some v else none := by
  induction acc with
  | nil => by_cases h : k' = k <;> simp [lookupKey, List.find?, h]
  | cons hd tl ih =>
    by_cases h : hd.1 = k
    · simp [lookupKey, List.find?, h]
    · simpa [lookupKey, List.find?, h] using ih

theorem lookupKey_setKey_self (acc : MergeMap) (k : ChunkKey) (v : Hit) :
    lookupKey (setKey acc k v) k =
      match lookupKey acc k with
      | some _ => some v
      | none => none := by
  induction acc with
  | nil => simp [lookupKey, setKey]
  | cons hd tl ih =>
    by_cases h : hd.1 = k
    · simp [lookupKey, setKey, List.find?, h]
    · simpa [lookupKey, setKey, List.find?, h] using ih

theorem lookupKey_setKey_ne (acc : MergeMap) (k k' : ChunkKey) (v : Hit)
    (hne : k' ≠ k) :
    lookupKey (setKey acc k' v) k = lookupKey acc k := by
  induction acc with
  | nil => simp [lookupKey, setKey]
  | cons hd tl ih =>
    obtain ⟨a, b⟩ := hd
    by_cases h : a = k'
    · subst h
      have hk : a ≠ k := fun hh => hne (hh ▸ rfl)
      simp [lookupKey, setKey, List.find?, hk, hne.symm]
    · by_cases h2 : a = k
      · simp [lookupKey, setKey, List.find?, h, h2, Ne.symm hne]
      · simpa [lookupKey, setKey, List.find?, h, h2] using ih

/-- The winner-so-far for a key: keep the new record iff its score is
strictly greater (the `>` collision test). -/
def pickBetter (o : Option Hit) (m : Hit) : Hit :=
  match o with
  | none => m
  | some c => if c.score < m.score then m else c

theorem lookupKey_mergeStep (acc : MergeMap) (m : Hit) (k : ChunkKey) :
    lookupKey (mergeStep acc m) k =
      if m.key = k then some (pickBetter (lookupKey acc m.key) m)
      else lookupKey acc k := by
  unfold mergeStep
  cases hacc : lookupKey acc m.key with
  | none =>
    rw [lookupKey_append_single]
    by_cases h : m.key = k
    · subst h; simp [hacc, pickBetter]
    · simp [h]
      cases lookupKey acc k <;> simp
  | some old =>
    by_cases hsc : old.score < m.score
    · simp only [hsc, if_pos]
      by_cases h : m.key = k
      · subst h; simp [lookupKey_setKey_self, hacc, pickBetter, hsc]
      · simp [h, lookupKey_setKey_ne acc k m.key m h]
    · simp only [hsc, if_neg, if_false]
      by_cases h : m.key = k
      · subst h; simp [hacc, pickBetter, hsc]
      · simp [h]

/-- Folding `pickBetter` over the occurrences of one key. -/
def pickFold (o : Option Hit) (l : List Hit) : Option Hit :=
  l.foldl (fun o m => some (pickBetter o m)) o

theorem lookupKey_fold (l : List Hit) (acc : MergeMap) (k : ChunkKey) :
    lookupKey (l.foldl mergeStep acc) k =
      pickFold (lookupKey acc k) (l.filter (fun m => m.key = k)) := by
  induction l generalizing acc with
  | nil => simp [pickFold]
  | cons hd tl ih =>
    by_cases h : hd.key = k
    · rw [List.foldl_cons, ih, lookupKey_mergeStep, if_pos h, h]
      simp [List.filter_cons, h, pickFold]
    · rw [List.foldl_cons, ih, lookupKey_mergeStep, if_neg h]
      simp [List.filter_cons, h]

theorem pickFold_some_spec (l : List Hit) (c : Hit) :
    ∃ d, pickFold (some c) l = some d ∧ (d = c ∨ d ∈ l) ∧ c.score ≤ d.score ∧
      ∀ x ∈ l, x.score ≤ d.score := by
  induction l generalizing c with
  | nil => exact ⟨c, rfl, Or.inl rfl, le_refl _, by simp⟩
  | cons hd tl ih =>
    by_cases h : c.score < hd.score
    · obtain ⟨d, hfold, hmem, hle, hall⟩ := ih hd
      refine ⟨d, ?_, ?_, le_of_lt (lt_of_lt_of_le h hle), ?_⟩
      · simpa [pickFold, pickBetter, h] using hfold
      · rcases hmem with rfl | hm
        · exact Or.inr (List.mem_cons_self _ _)
        · exact Or.inr (List.mem_cons_of_mem _ hm)
      · intro x hx
        rcases List.mem_cons.mp hx with rfl | hx
        · exact hle
        · exact hall x hx
    · obtain ⟨d, hfold, hmem, hle, hall⟩ := ih c
      refine ⟨d, ?_, ?_, hle, ?_⟩
      · simpa [pickFold, pickBetter, h] using hfold
      · rcases hmem with rfl | hm
        · exact Or.inl rfl
        · exact Or.inr (List.mem_cons_of_mem _ hm)
      · intro x hx
        rcases List.mem_cons.mp hx with rfl | hx
        · exact le_trans (le_of_not_lt h) hle
        · exact hall x hx

theorem pickFold_none_spec (l : List Hit) (hne : l ≠ []) :
    ∃ d, pickFold none l = some d ∧ d ∈ l ∧ ∀ x ∈ l, x.score ≤ d.score := by
  cases l with
  | nil => exact absurd rfl hne
  | cons hd tl =>
    obtain ⟨d, hfold, hmem, hle, hall⟩ := pickFold_some_spec tl hd
    refine ⟨d, ?_, ?_, ?_⟩
    · simpa [pickFold, pickBetter] using hfold
    · rcases hmem with rfl | hm
      · exact List.mem_cons_self _ _
      · exact List.mem_cons_of_mem _ hm
    · intro x hx
      rcases List.mem_cons.mp hx with rfl | hx
      · exact hle
      · exact hall x hx

/-- Ties keep the incumbent: if nothing in `l` strictly beats `c`,
the fold returns `c`. -/
theorem pickFold_first_wins (l : List Hit) (c : Hit)
    (h : ∀ x ∈ l, x.score ≤ c.score) :
    pickFold (some c) l = some c := by
  induction l with
  | nil => rfl
  | cons hd tl ih =>
    have hhd : ¬ c.score < hd.score :=
      not_lt_of_le (h hd (List.mem_cons_self _ _))
    simp only [pickFold, List.foldl_cons, pickBetter, hhd, if_neg, if_false]
    exact ih (fun x hx => h x (List.mem_cons_of_mem _ hx))

end NyaySaathi

namespace NyaySaathi

/-! ### Key-set invariants of the merge map -/

def keysOf (acc : MergeMap) : List ChunkKey := acc.map Prod.fst

theorem lookupKey_eq_none_iff (acc : MergeMap) (k : ChunkKey) :
    lookupKey acc k = none ↔ k ∉ keysOf acc := by
  unfold lookupKey keysOf
  rw [Option.map_eq_none', List.find?_eq_none]
  constructor
  · intro h hk
    obtain ⟨p, hp, hfst⟩ := List.mem_map.mp hk
    exact absurd (by simpa using hfst) (by simpa using h p hp)
  · intro h p hp
    simp only [decide_eq_true_eq]
    intro hfst
    exact h (List.mem_map.mpr ⟨p, hp, hfst⟩)

theorem keysOf_setKey (acc : MergeMap) (k : ChunkKey) (v : Hit) :
    keysOf (setKey acc k v) = keysOf acc := by
  induction acc with
  | nil => rfl
  | cons hd tl ih =>
    obtain ⟨a, b⟩ := hd
    by_cases h : a = k
    · simp [setKey, keysOf, h]
    · simpa [setKey, keysOf, h] using ih

theorem keysOf_mergeStep (acc : MergeMap) (m : Hit) :
    keysOf (mergeStep acc m) =
      if m.key ∈ keysOf acc then keysOf acc else keysOf acc ++ [m.key] := by
  unfold mergeStep
  cases hacc : lookupKey acc m.key with
  | none =>
    have h1 : m.key ∉ keysOf acc := (lookupKey_eq_none_iff acc m.key).mp hacc
    rw [if_neg h1]
    simp [keysOf]
  | some old =>
    have hmem : m.key ∈ keysOf acc := by
      by_contra hk
      rw [← lookupKey_eq_none_iff] at hk
      rw [hacc] at hk
      exact Option.noConfusion hk
    rw [if_pos hmem]
    by_cases hsc : old.score < m.score
    · simpa [hsc] using keysOf_setKey acc m.key m
    · simp [hsc]

theorem nodup_keys_mergeStep (acc : MergeMap) (m : Hit)
    (h : (keysOf acc).Nodup) : (keysOf (mergeStep acc m)).Nodup := by
  rw [keysOf_mergeStep]
  by_cases hmem : m.key ∈ keysOf acc
  · simpa [hmem] using h
  · simpa [hmem] using List.Nodup.append h (List.nodup_singleton _)
      (by simpa using fun hk => hmem hk)

theorem nodup_keys_fold (l : List Hit) (acc : MergeMap)
    (h : (keysOf acc).Nodup) : (keysOf (l.foldl mergeStep acc)).Nodup := by
  induction l generalizing acc with
  | nil => exact h
  | cons hd tl ih => exact ih _ (nodup_keys_mergeStep acc hd h)

theorem nodup_keys_mergeHits (lists : List (List Hit)) :
    (keysOf (mergeHits lists)).Nodup :=
  nodup_keys_fold _ [] (by simp [keysOf])

/-- Every binding in the merged map binds a record to its own identity. -/
def WellKeyed (acc : MergeMap) : Prop := ∀ p ∈ acc, p.2.key = p.1

theorem wellKeyed_setKey (acc : MergeMap) (k : ChunkKey) (v : Hit)
    (hv : v.key = k) (h : WellKeyed acc) : WellKeyed (setKey acc k v) := by
  induction acc with
  | nil => exact h
  | cons hd tl ih =>
    obtain ⟨a, b⟩ := hd
    by_cases hk : a = k
    · intro p hp
      rcases List.mem_cons.mp (by simpa [setKey, hk] using hp) with rfl | hp
      · exact hv
      · exact h p (List.mem_cons_of_mem _ hp)
    · intro p hp
      rcases List.mem_cons.mp (by simpa [setKey, hk] using hp) with rfl | hp
      · exact h _ (List.mem_cons_self _ _)
      · exact ih (fun q hq => h q (List.mem_cons_of_mem _ hq)) p hp

theorem wellKeyed_mergeStep (acc : MergeMap) (m : Hit)
    (h : WellKeyed acc) : WellKeyed (mergeStep acc m) := by
  unfold mergeStep
  cases lookupKey acc m.key with
  | none =>
    intro p hp
    rcases List.mem_append.mp hp with hp | hp
    · exact h p hp
    · rcases List.mem_singleton.mp hp with rfl; rfl
  | some old =>
    by_cases hsc : old.score < m.score
    · simpa [hsc] using wellKeyed_setKey acc m.key m rfl h
    · simpa [hsc] using h

theorem wellKeyed_fold (l : List Hit) (acc : MergeMap)
    (h : WellKeyed acc) : WellKeyed (l.foldl mergeStep acc) := by
  induction l generalizing acc with
  | nil => exact h
  | cons hd tl ih => exact ih _ (wellKeyed_mergeStep acc hd h)

theorem wellKeyed_mergeHits (lists : List (List Hit)) :
    WellKeyed (mergeHits lists) :=
  wellKeyed_fold _ [] (by intro p hp; cases hp)

/-- The identities of `list(merged.values())` are exactly the map's keys. -/
theorem values_keys_eq (lists : List (List Hit)) :
    (mergeResults lists).map Hit.key = keysOf (mergeHits lists) := by
  unfold mergeResults keysOf
  rw [List.map_map]
  exact List.map_congr_left (fun p hp => wellKeyed_mergeHits lists p hp)

/-- No two records in the merged values share an identity. -/
theorem nodup_mergeResults (lists : List (List Hit)) :
    ((mergeResults lists).map Hit.key).Nodup := by
  rw [values_keys_eq]; exact nodup_keys_mergeHits lists

end NyaySaathi

namespace NyaySaathi

/-! ### General merge lookup specification -/

theorem lookupKey_mergeHits (lists : List (List Hit)) (k : ChunkKey) :
    lookupKey (mergeHits lists) k =
      pickFold none (lists.flatten.filter (fun m => m.key = k)) := by
  unfold mergeHits
  rw [lookupKey_fold]
  rfl

theorem lookup_merge_spec (lists : List (List Hit)) (k : ChunkKey)
    (hk : ∃ x ∈ lists.flatten, x.key = k) :
    ∃ h, lookupKey (mergeHits lists) k = some h ∧ h ∈ lists.flatten ∧
      h.key = k ∧ ∀ x ∈ lists.flatten, x.key = k → x.score ≤ h.score := by
  obtain ⟨x0, hx0, hkx0⟩ := hk
  have hne : lists.flatten.filter (fun m => m.key = k) ≠ [] := by
    intro hempty
    have : x0 ∈ lists.flatten.filter (fun m => m.key = k) :=
      List.mem_filter.mpr ⟨hx0, by simpa using hkx0⟩
    rw [hempty] at this
    cases this
  obtain ⟨d, hfold, hmem, hall⟩ := pickFold_none_spec _ hne
  refine ⟨d, ?_, ?_, ?_, ?_⟩
  · rw [lookupKey_mergeHits, hfold]
  · exact (List.mem_filter.mp hmem).1
  · simpa using (List.mem_filter.mp hmem).2
  · intro x hx hkx
    exact hall x (List.mem_filter.mpr ⟨hx, by simpa using hkx⟩)

theorem lookupKey_mem_keys (acc : MergeMap) (k : ChunkKey) (h : Hit)
    (hl : lookupKey acc k = some h) : k ∈ keysOf acc := by
  by_contra hk
  rw [← lookupKey_eq_none_iff] at hk
  rw [hl] at hk
  exact Option.noConfusion hk

theorem countP_eq_one_of_nodup {α : Type} [DecidableEq α] (l : List α) (k : α)
    (h : l.Nodup) (hm : k ∈ l) : l.countP (fun x => x = k) = 1 := by
  induction l with
  | nil => cases hm
  | cons hd tl ih =>
    rcases List.mem_cons.mp hm with rfl | hm2
    · have hz : tl.countP (fun x => x = k) = 0 := by
        rw [List.countP_eq_zero]
        intro a ha
        simp only [decide_eq_true_eq]
        rintro rfl
        exact (List.nodup_cons.mp h).1 ha
      simp [List.countP_cons, hz]
    · have hne : hd ≠ k := by
        rintro rfl
        exact (List.nodup_cons.mp h).1 hm2
      simp [List.countP_cons, hne, ih (List.nodup_cons.mp h).2 hm2]

/-- C2.  The merge step of `retrieve_context` holds exactly one entry per
chunk identity present in the input lists, and that entry's score is the
maximum score the identity had across the lists (the entry itself is one of
the occurrences, and no occurrence scores higher). -/
theorem merge_unique_entry_max_score (l1 l2 l3 : List Hit) (k : ChunkKey)
    (a b : Hit) (ha : a ∈ l1) (hka : a.key = k) (_hb : b ∈ l2) (_hkb : b.key = k) :
    (keysOf (mergeHits [l1, l2, l3])).countP (fun x => x = k) = 1 ∧
    ∃ h, lookupKey (mergeHits [l1, l2, l3]) k = some h ∧
      h ∈ ([l1, l2, l3] : List (List Hit)).flatten ∧ h.key = k ∧
      ∀ x ∈ ([l1, l2, l3] : List (List Hit)).flatten, x.key = k →
        x.score ≤ h.score := by
  have hmem : ∃ x ∈ ([l1, l2, l3] : List (List Hit)).flatten, x.key = k :=
    ⟨a, by simp [ha], hka⟩
  obtain ⟨h, hlk, hjoin, hkey, hmax⟩ := lookup_merge_spec [l1, l2, l3] k hmem
  exact ⟨countP_eq_one_of_nodup _ _ (nodup_keys_mergeHits [l1, l2, l3])
    (lookupKey_mem_keys _ _ _ hlk), h, hlk, hjoin, hkey, hmax⟩

/-- Sample records used by concrete witnesses: two occurrences of identity
`("d", 1)` coming from different search-result lists. -/
def sampleBaseHit : Hit := ⟨some "d", some 1, some "base", 3/5, ⟨[], []⟩⟩

def sampleAltHit : Hit := ⟨some "d", some 1, some "alt", 4/5, ⟨[], []⟩⟩

/-- Witness for C2 at a concrete input: identity `("d", 1)` occurs in the
first list with score 3/5 and in the second with score 4/5; the merged map
holds one entry for it, scored 4/5. -/
theorem merge_unique_entry_max_score_witness :
    (keysOf (mergeHits [[sampleBaseHit], [sampleAltHit], []])).countP
      (fun x => x = ((some "d", some 1) : ChunkKey)) = 1 ∧
    ∃ h, lookupKey (mergeHits [[sampleBaseHit], [sampleAltHit], []])
        ((some "d", some 1) : ChunkKey) = some h ∧
      h ∈ ([[sampleBaseHit], [sampleAltHit], []] : List (List Hit)).flatten ∧
      h.key = ((some "d", some 1) : ChunkKey) ∧
      ∀ x ∈ ([[sampleBaseHit], [sampleAltHit], []] : List (List Hit)).flatten,
        x.key = ((some "d", some 1) : ChunkKey) → x.score ≤ h.score :=
  merge_unique_entry_max_score _ _ _ _ _ _
    (List.mem_singleton.mpr rfl) rfl (List.mem_singleton.mpr rfl) rfl

/-- C10.  The collision test uses strict `>`, so the first record
encountered with the maximal score for an identity is the one kept: if the
occurrences of identity `k` across the three lists (in the order
expanded-query, original-query, keyword-query) start with `a` and no later
occurrence strictly beats `a`'s score, the merged entry for `k` is `a`
itself — on ties the earlier list takes precedence. -/
theorem merge_tie_keeps_first (l1 l2 l3 : List Hit) (k : ChunkKey)
    (a : Hit) (rest : List Hit)
    (hfilter : (([l1, l2, l3] : List (List Hit)).flatten).filter
      (fun m => m.key = k) = a :: rest)
    (hrest : ∀ x ∈ rest, x.score ≤ a.score) :
    lookupKey (mergeHits [l1, l2, l3]) k = some a := by
  rw [lookupKey_mergeHits, hfilter]
  have : pickFold none (a :: rest) = pickFold (some a) rest := by
    simp [pickFold, pickBetter]
  rw [this]
  exact pickFold_first_wins rest a hrest

/-- Tied records used by the C10 witness: identical identity and score,
different texts, from the expanded-query and original-query lists. -/
def sampleTieExpanded : Hit := ⟨some "d", some 1, some "expanded", 7/10, ⟨[], []⟩⟩

def sampleTieOriginal : Hit := ⟨some "d", some 1, some "original", 7/10, ⟨[], []⟩⟩

/-- Witness for C10 at a concrete input: the expanded-query list and the
original-query list both return identity `("d", 1)` with score 7/10 but
different texts; the merged entry keeps the expanded-query record. -/
theorem merge_tie_keeps_first_witness :
    lookupKey (mergeHits [[sampleTieExpanded], [sampleTieOriginal], []])
      ((some "d", some 1) : ChunkKey) = some sampleTieExpanded :=
  merge_tie_keeps_first [sampleTieExpanded] [sampleTieOriginal] []
    ((some "d", some 1) : ChunkKey) sampleTieExpanded [sampleTieOriginal]
    (by with_unfolding_all decide) (by with_unfolding_all decide)

end NyaySaathi

namespace NyaySaathi

/-! ## Stable descending sort

`list.sort(key=..., reverse=True)` in Python is a stable sort: elements
with equal keys keep their original relative order.  A stable descending
sort is modelled by inserting each element, in original order, after every
already-placed element whose key is `≥` its own. -/

def insertDescBy {α : Type} (f : α → ℚ) (x : α) : List α → List α
  | [] => [x]
  | y :: ys => if f y < f x then x :: y :: ys else y :: insertDescBy f x ys

def sortDescBy {α : Type} (f : α → ℚ) (l : List α) : List α :=
  l.foldl (fun acc x => insertDescBy f x acc) []

/-- Keys are non-increasing along the list. -/
def NonIncrBy {α : Type} (f : α → ℚ) (l : List α) : Prop :=
  l.Chain' (fun a b => f b ≤ f a)

theorem insertDescBy_sorted {α : Type} (f : α → ℚ) (x : α) (l : List α)
    (h : NonIncrBy f l) : NonIncrBy f (insertDescBy f x l) := by
  induction l with
  | nil => simp [insertDescBy, NonIncrBy]
  | cons y ys ih =>
    unfold insertDescBy
    by_cases hxy : f y < f x
    · rw [if_pos hxy]
      exact List.Chain'.cons (le_of_lt hxy) h
    · rw [if_neg hxy]
      have hys : NonIncrBy f ys := h.tail
      have hins := ih hys
      cases hys2 : insertDescBy f x ys with
      | nil => exact List.chain'_singleton y
      | cons z zs =>
        rw [hys2] at hins
        refine List.Chain'.cons ?_ hins
        cases ys with
        | nil =>
          simp [insertDescBy] at hys2
          rw [← hys2.1]
          exact le_of_not_lt hxy
        | cons w ws =>
          unfold insertDescBy at hys2
          by_cases hwx : f w < f x
          · rw [if_pos hwx] at hys2
            cases hys2
            exact le_of_not_lt hxy
          · rw [if_neg hwx] at hys2
            cases hys2
            exact List.chain'_cons.mp h |>.1

theorem sortDescBy_sorted {α : Type} (f : α → ℚ) (l : List α) :
    NonIncrBy f (sortDescBy f l) := by
  unfold sortDescBy
  have h : ∀ (acc : List α), NonIncrBy f acc →
      NonIncrBy f (l.foldl (fun acc x => insertDescBy f x acc) acc) := by
    induction l with
    | nil => intro acc hacc; exact hacc
    | cons hd tl ih =>
      intro acc hacc
      exact ih _ (insertDescBy_sorted f hd acc hacc)
  exact h [] (by simp [NonIncrBy])

theorem insertDescBy_perm {α : Type} (f : α → ℚ) (x : α) (l : List α) :
    (insertDescBy f x l).Perm (x :: l) := by
  induction l with
  | nil => simp [insertDescBy]
  | cons y ys ih =>
    unfold insertDescBy
    by_cases hxy : f y < f x
    · rw [if_pos hxy]
    · rw [if_neg hxy]
      exact (ih.cons y).trans (List.Perm.swap x y ys)

theorem sortDescBy_perm {α : Type} (f : α → ℚ) (l : List α) :
    (sortDescBy f l).Perm l := by
  unfold sortDescBy
  have h : ∀ (acc : List α),
      (l.foldl (fun acc x => insertDescBy f x acc) acc).Perm (acc ++ l) := by
    induction l with
    | nil => intro acc; simp
    | cons hd tl ih =>
      intro acc
      refine ((ih (insertDescBy f hd acc)).trans ?_)
      refine (((insertDescBy_perm f hd acc).append_right tl).trans ?_)
      simpa using (@List.perm_middle _ hd acc tl).symm
  simpa using h []

end NyaySaathi

namespace NyaySaathi

/-! ## Reference extraction (`_extract_refs`, `_detect_legal_refs`)

`re.findall` with the patterns used by the engine is modelled by a
left-to-right, non-overlapping scanner: at each position the pattern
`<kw>\s+<capture>` is tried; on a match the scanner resumes after the
match, otherwise it advances one character. -/

/-- `\d+[a-z]?` (greedy digits, optional single lower-case letter). -/
def parseNumLetter (cs : List Char) : Option (List Char × List Char) :=
  let ds := cs.takeWhile isAsciiDigit
  let rest := cs.drop ds.length
  if ds = [] then none
  else
    match rest with
    | c :: rest2 => if 'a' ≤ c ∧ c ≤ 'z' then some (ds ++ [c], rest2) else some (ds, rest)
    | [] => some (ds, [])

/-- `\d+[a-z]?(?:\([^)]+\))?` — as above plus an optional greedy
parenthesised group (one or more non-`)` characters). -/
def parseNumLetterParen (cs : List Char) : Option (List Char × List Char) :=
  match parseNumLetter cs with
  | none => none
  | some (cap, rest) =>
    match rest with
    | '(' :: rest2 =>
      let body := rest2.takeWhile (fun c => c ≠ ')')
      let rest3 := rest2.drop body.length
      if body = [] then some (cap, rest)
      else
        match rest3 with
        | ')' :: rest4 => some (cap ++ '(' :: body ++ [')'], rest4)
        | _ => some (cap, rest)
    | _ => some (cap, rest)

def isRomanChar (c : Char) : Bool :=
  c = 'i' || c = 'v' || c = 'x' || c = 'l' || c = 'c' || c = 'd' || c = 'm'

/-- `[ivxlcdm]+|\d+` — roman-numeral letters tried first, then digits. -/
def parseRomanOrDigits (cs : List Char) : Option (List Char × List Char) :=
  let rs := cs.takeWhile isRomanChar
  if rs ≠ [] then some (rs, cs.drop rs.length)
  else
    let ds := cs.takeWhile isAsciiDigit
    if ds ≠ [] then some (ds, cs.drop ds.length) else none

/-- Try `<kw>\s+<p>` at the head of `cs`. -/
def matchKwAt (kw : List Char)
    (p : List Char → Option (List Char × List Char)) (cs : List Char) :
    Option (List Char × List Char) :=
  if listIsPrefix kw cs then
    let rest := cs.drop kw.length
    let ws := rest.takeWhile pyWs
    if ws = [] then none
    else p (rest.drop ws.length)
  else none

def findAllPatAux (kw : List Char)
    (p : List Char → Option (List Char × List Char)) :
    Nat → List Char → List String
  | 0, _ => []
  | _ + 1, [] => []
  | fuel + 1, c :: tl =>
    match matchKwAt kw p (c :: tl) with
    | some (cap, rest) => (⟨cap⟩ : String) :: findAllPatAux kw p fuel rest
    | none => findAllPatAux kw p fuel tl

/-- `re.findall(rf"{kw}\s+<p>", s)` (captures only). -/
def findAllPat (kw : String)
    (p : List Char → Option (List Char × List Char)) (s : String) : List String :=
  findAllPatAux kw.data p s.data.length s.data

/-- The reranker's reference map (`_extract_refs`): article, section, part
and chapter references pattern-matched over the lowercased query. -/
structure RefsMap where
  article : List String
  sectionRefs : List String
  partRefs : List String
  chapterRefs : List String
  deriving DecidableEq, Repr

def extractRefs (q : String) : RefsMap :=
  let ql := pyLower q
  { article := findAllPat "article" parseNumLetter ql
    sectionRefs := findAllPat "section" parseNumLetter ql
    partRefs := findAllPat "part" parseRomanOrDigits ql
    chapterRefs := findAllPat "chapter" parseRomanOrDigits ql }

/-- `_detect_legal_refs`: article references may carry one parenthesised
subsection; `has_ref` is true iff any article or section was found. -/
structure LegalRefs where
  articles : List String
  sections : List String
  has_ref : Bool
  deriving DecidableEq, Repr

def detectLegalRefs (q : String) : LegalRefs :=
  let ql := pyLower q
  let arts := findAllPat "article" parseNumLetterParen ql
  let secs := findAllPat "section" parseNumLetter ql
  ⟨arts, secs, arts ≠ [] || secs ≠ []⟩

/-! ## Link map (`_load_legal_links` built-in default) -/

structure LinkCfg where
  linkedSections : List String
  keywords : List String
  deriving DecidableEq, Repr

abbrev LinkMap := List (String × LinkCfg)

/-- The built-in minimal mapping returned when `legal_links.json` is absent
(the repository ships no such file). -/
def defaultLegalLinks : LinkMap :=
  [("19(1)(a)", ⟨["69A IT Act", "69 IT Act"],
      ["speech", "publish", "ban", "expression", "censorship"]⟩),
   ("19(2)", ⟨["69A IT Act"],
      ["reasonable restriction", "public order", "decency", "morality",
       "security of the state", "sovereignty"]⟩),
   ("32", ⟨[], ["writ", "remedy"]⟩),
   ("226", ⟨[], ["writ", "high court"]⟩)]

def linkGet (links : LinkMap) (k : String) : Option LinkCfg :=
  (links.find? (fun p => p.1 = k)).map (fun p => p.2)

/-! ## Query expansion (`_expand_query`) -/

def joinWithStr (sep : String) : List String → String
  | [] => ""
  | [s] => s
  | s :: rest => s ++ sep ++ joinWithStr sep rest

/-- Ascending lexicographic insertion sort on strings
(Python `sorted` over a set of strings). -/
def insertStrAsc (x : String) : List String → List String
  | [] => [x]
  | y :: ys => if x < y then x :: y :: ys else y :: insertStrAsc x ys

def sortStrAsc (l : List String) : List String :=
  l.foldl (fun acc x => insertStrAsc x acc) []

/-- Python `str.isdigit()` restricted to ASCII digits. -/
def pyIsDigitStr (s : String) : Bool := s ≠ "" && s.data.all isAsciiDigit

/-- Replace every occurrence of `pat` (non-empty) left to right. -/
def replaceListAux (pat rep : List Char) : Nat → List Char → List Char
  | 0, cs => cs
  | _ + 1, [] => []
  | fuel + 1, c :: tl =>
    if listIsPrefix pat (c :: tl) then
      rep ++ replaceListAux pat rep fuel ((c :: tl).drop pat.length)
    else c :: replaceListAux pat rep fuel tl

def pyReplace (s pat rep : String) : String :=
  ⟨replaceListAux pat.data rep.data s.data.length s.data⟩

/-- `_expand_query(q, det, links) -> (expanded_query, keyword_query)`. -/
def expandQuery (q : String) (det : LegalRefs) (links : LinkMap) :
    String × String :=
  let step := fun (st : List String × List String) (a : String) =>
    let aKey := pyUpper a
    let aKeys := if pyIsDigitStr aKey && aKey = "19" then ["19(1)(a)", "19(2)"]
      else [aKey]
    aKeys.foldl (fun (st : List String × List String) ak =>
      let cfg := ((linkGet links ak).orElse
        (fun _ => linkGet links (pyReplace ak "ARTICLE " ""))).getD ⟨[], []⟩
      let secs := cfg.linkedSections
      let kws := cfg.keywords
      let toks := if secs ≠ [] then
        st.1 ++ ["; related sections: " ++ joinWithStr ", " secs] else st.1
      let kwts := if kws ≠ [] then st.2 ++ kws else st.2
      (toks, kwts)) st
  let st1 := det.articles.foldl step ([q], [])
  let st2 := det.sections.foldl (fun (st : List String × List String) s =>
    if pyUpper s = "69A" || pyUpper s = "69" then
      (st.1 ++ ["; constitutional grounds: Article 19(2) public order/sovereignty/decency/morality"],
       st.2 ++ ["public order", "reasonable restriction", "procedure", "safeguard"])
    else st) st1
  let expanded := pyStrip (joinWithStr " " st2.1)
  let kwQuery := if st2.2 ≠ [] then
    q ++ " " ++ joinWithStr " " (sortStrAsc st2.2.dedup) else q
  (expanded, kwQuery)

end NyaySaathi

namespace NyaySaathi

/-! ## Lexical overlap (`_keyword_overlap`) -/

/-- Maximal runs of ASCII letters (`re.findall(r"[a-zA-Z]{3,}", ...)`
applied to the lowercased string keeps runs of length ≥ 3). -/
def alphaRunsAux : List Char → List Char → List (List Char)
  | [], acc => if acc = [] then [] else [acc.reverse]
  | c :: tl, acc =>
    if isAsciiAlpha c then alphaRunsAux tl (c :: acc)
    else (if acc = [] then [] else [acc.reverse]) ++ alphaRunsAux tl []

/-- The token set of a string: distinct lowercased alphabetic runs of
length at least 3. -/
def tokenSet (s : String) : List String :=
  (((alphaRunsAux (pyLower s).data []).filter (fun r => 3 ≤ r.length)).map
    (fun r => (⟨r⟩ : String))).dedup

/-- `_keyword_overlap(a, b)`: `min(1, |ta ∩ tb| / min(|ta|, |tb|))`,
`0` when either token set is empty. -/
def keywordOverlap (a b : String) : ℚ :=
  let ta := tokenSet a
  let tb := tokenSet b
  if ta = [] ∨ tb = [] then 0
  else
    let inter := ta.filter (fun w => w ∈ tb)
    let base := min ta.length tb.length
    let base := if base = 0 then 1 else base
    min 1 ((inter.length : ℚ) / (base : ℚ))

/-! ## Invoked articles and vocabulary lists (`retrieve_context`) -/

def strDigitsToNat (ds : List Char) : Nat :=
  ds.foldl (fun n c => n * 10 + (c.toNat - 48)) 0

/-- `int(re.sub(r"[^0-9]", "", a))` with the exception (empty digit
string) mapped to `none`. -/
def parseIntDigits (a : String) : Option Int :=
  let ds := a.data.filter isAsciiDigit
  if ds = [] then none else some (strDigitsToNat ds : Int)

def publicOrderCues : List String :=
  ["public order", "decency", "morality", "sovereignty",
   "security of the state", "free speech", "freedom of speech", "article 19"]

/-- `_invoked_articles(q, refs_map)`. -/
def invokedArticles (q : String) (refsMap : RefsMap) : List Int :=
  let ql := pyLower q
  let nums := refsMap.article.filterMap parseIntDigits
  let nums := if publicOrderCues.any (fun k => strContains ql k) then
    nums ++ [19] else nums
  let nums := if strContains ql "right to equality" ||
      strContains ql "equality before law" then
    nums ++ [14, 15, 16, 17, 18] else nums
  let nums := if strContains ql "right to freedom" then
    nums ++ [19, 20, 21, 22] else nums
  let nums := if strContains ql "right against exploitation" then
    nums ++ [23, 24] else nums
  let nums := if strContains ql "freedom of religion" then
    nums ++ [25, 26, 27, 28] else nums
  let nums := if strContains ql "cultural" && strContains ql "educational" then
    nums ++ [29, 30] else nums
  let nums := if strContains ql "constitutional remedies" then
    nums ++ [32] else nums
  nums

def restrictionTerms : List String :=
  ["reasonable restriction", "subject to", "notwithstanding", "restriction",
   "exception", "reservation", "classification", "intelligible differentia",
   "rational nexus", "public order", "morality", "security of state"]

def proceduralTerms : List String :=
  ["procedure", "safeguard", "reasons to be recorded in writing", "by order",
   "subject to the provisions of sub-section", "rules may be prescribed",
   "block", "blocking", "intercept", "monitor", "decrypt"]

/-! ## Statute → Constitution link mapper (`_statute_links`) -/

def optIntTruthy (o : Option Int) : Bool :=
  match o with
  | none => false
  | some n => n ≠ 0

/-- `_statute_links(meta, text)`: the JSON-driven pass over the link map
followed by the two hand-tuned fallbacks.  Note: the map key digits are
concatenated, so key `"19(1)(a)"` yields article number 191. -/
def statuteLinks (mapping : LinkMap) (meta : ChunkMeta) (text : String) :
    List Int :=
  let title := pyLower ((pyOrOpt (meta.get "title") (meta.get "source_path")).getD "")
  let sectionStr := pyUpper ((meta.get "section").getD "")
  let t := pyLower text
  let fromMap := mapping.foldl (fun (acc : List Int) p =>
    let artNum := parseIntDigits p.1
    let sectionsU := p.2.linkedSections.map pyUpper
    let kwsL := p.2.keywords.map pyLower
    let acc := if sectionsU.any (fun sec =>
        strContains sectionStr sec ||
        (sectionStr ≠ "" && strContains sec sectionStr) ||
        (sec ≠ "" && strContains (pyUpper t) sec)) then
      (if optIntTruthy artNum then acc ++ [artNum.getD 0] else acc)
    else acc
    let acc := if kwsL ≠ [] && kwsL.any (fun k => strContains t k) then
      (if optIntTruthy artNum then acc ++ [artNum.getD 0] else acc)
    else acc
    acc) []
  let f1 := if (strContains title "information technology" ||
      strContains title "it_act" || strContains title "it act") &&
      (sectionStr = "69A" || sectionStr = "69" ||
       strContains t "section 69a" || strContains t "section 69") then
    [(19 : Int)] else []
  let f2 := if (strContains title "code of criminal procedure" ||
      strContains title "crpc") && sectionStr = "144" then [(19 : Int)] else []
  fromMap ++ f1 ++ f2

/-! ## Hybrid reranker (`retrieve_context`, lines 313–364) -/

/-- Minimum distance from `n` to any invoked article (targets non-empty). -/
def minDist (n : Int) (t : Int) (ts : List Int) : Nat :=
  ts.foldl (fun m x => min m (n - x).natAbs) (n - t).natAbs

/-- `target_articles.append(lnk) if lnk not in target_articles`. -/
def extendTargets (targets : List Int) (lnks : List Int) : List Int :=
  lnks.foldl (fun ts l => if l ∈ ts then ts else ts ++ [l]) targets

/-- The truthy-fallback chain over the three capitalisations of a
metadata field: `meta.get("article") or meta.get("Article") or
meta.get("ARTICLE")`. -/
def metaField (meta : ChunkMeta) (k1 k2 k3 : String) : Option String :=
  pyOrOpt (meta.get k1) (pyOrOpt (meta.get k2) (meta.get k3))

/-- Exact legal-number alignment boost: `b` when the (truthy) field
case-insensitively equals one of the extracted references. -/
def exactB (field : Option String) (refsL : List String) (b : ℚ) : ℚ :=
  if optTruthy field && refsL.any (fun a => pyLower (field.getD "") = a)
  then b else 0

/-- Article numeric proximity: `0.15 * max(0, 1 - minDist/10)` when the
chunk has a (non-zero) article number and invoked articles exist. -/
def proximityB (artNum : Option Int) (targets : List Int) : ℚ :=
  match artNum, targets with
  | some n, t :: ts =>
    if n ≠ 0 then 0.15 * max 0 (1 - (minDist n t ts : ℚ) / 10) else 0
  | _, _ => 0

/-- Vocabulary-presence boost (substring match against a fixed list). -/
def vocabB (textLow : String) (terms : List String) (b : ℚ) : ℚ :=
  if terms.any (fun term => strContains textLow term) then b else 0

/-- Retrieval-time tag overlap boost. -/
def tagBonus (tags : List String) : ℚ :=
  if ["procedure", "safeguard", "blocking", "interception"].any
    (fun t => t ∈ tags) then 0.10 else 0

/-- Statute↔Constitution link boost: a linked article already invoked. -/
def linkBonus (lnks targets : List Int) : ℚ :=
  if lnks ≠ [] && targets ≠ [] then
    (if lnks.any (fun l => l ∈ targets) then 0.12 else 0) else 0

/-- One iteration of the reranking loop: computes
`finalScore = base + bonus` for record `r` and the (possibly enriched)
invoked-articles list for subsequent records. -/
def chunkBonus (q0 : String) (refs : RefsMap) (mapping : LinkMap)
    (targets : List Int) (r : Hit) : ℚ × List Int :=
  let meta := r.meta
  let art := metaField meta "article" "Article" "ARTICLE"
  let sec := metaField meta "section" "Section" "SECTION"
  let prt := metaField meta "part" "Part" "PART"
  let chap := metaField meta "chapter" "Chapter" "CHAPTER"
  let artNum : Option Int := if optTruthy art then parseIntDigits (art.getD "") else none
  let textLow := pyLower r.textOrEmpty
  let lnks := statuteLinks mapping meta r.textOrEmpty
  let targets2 := if lnks ≠ [] && targets ≠ [] then extendTargets targets lnks
    else targets
  (r.score + exactB art refs.article 0.22 + exactB sec refs.sectionRefs 0.18 +
    exactB prt refs.partRefs 0.06 + exactB chap refs.chapterRefs 0.05 +
    proximityB artNum targets + vocabB textLow restrictionTerms 0.10 +
    vocabB textLow proceduralTerms 0.08 + tagBonus meta.tags +
    0.12 * keywordOverlap q0 r.textOrEmpty + linkBonus lnks targets,
   targets2)

/-- The `(finalScore, record)` pairs in input order, threading the
invoked-articles enrichment from each record to the next. -/
def rerankPairs (q0 : String) (refs : RefsMap) (mapping : LinkMap) :
    List Hit → List Int → List (ℚ × Hit)
  | [], _ => []
  | r :: rs, targets =>
    let res := chunkBonus q0 refs mapping targets r
    (res.1, r) :: rerankPairs q0 refs mapping rs res.2

/-- The scored list after the stable descending sort on `finalScore`. -/
def rerankScored (mapping : LinkMap) (q0 : String) (results : List Hit) :
    List (ℚ × Hit) :=
  let refs := extractRefs q0
  let targets := invokedArticles q0 refs
  sortDescBy Prod.fst (rerankPairs q0 refs mapping results targets)

/-- `results = [r for _, r in reranked][:top_k]`. -/
def rerankAndTrim (mapping : LinkMap) (q0 : String) (topK : Nat)
    (results : List Hit) : List Hit :=
  ((rerankScored mapping q0 results).map Prod.snd).take topK

end NyaySaathi

namespace NyaySaathi

/-! ## Intent and language classification -/

structure Intents where
  fundamentalRightsAll : Bool
  rightToEquality : Bool
  deriving DecidableEq, Repr

/-- English keyword set for the enumerate-all-fundamental-rights intent. -/
def frKeywordsEn : List String :=
  ["all fundamental rights", "list fundamental rights",
   "enumerate fundamental rights", "give me all my fundamental rights",
   "what are all my fundamental rights", "what are my fundamental rights",
   "what are the fundamental rights", "fundamental rights list",
   "list of fundamental rights"]

/-- Hindi keyword set. -/
def frKeywordsHi : List String :=
  ["मौलिक अधिकार", "सभी मौलिक अधिकार", "मौलिक अधिकारों की सूची"]

/-- Romanized-Hindi keyword set. -/
def frKeywordsHinglish : List String :=
  ["mool adhikar", "sabhi mool adhikar", "mool adhikar ki soochi",
   "mere mool adhikar", "mool adhikar kaunse", "mool adhikar kaun se",
   "mere kya mool adhikar"]

/-- Punjabi keyword set. -/
def frKeywordsPa : List String :=
  ["ਮੂਲ ਅਧਿਕਾਰ", "ਸਾਰੇ ਮੂਲ ਅਧਿਕਾਰ", "ਮੂਲ ਅਧਿਕਾਰਾਂ ਦੀ ਸੂਚੀ"]

/-- Bengali keyword set. -/
def frKeywordsBn : List String :=
  ["মৌলিক অধিকার", "সমস্ত মৌলিক অধিকার", "মৌলিক অধিকারের তালিকা"]

def rteKeywords : List String :=
  ["right to equality", "equality before law", "articles 14-18",
   "article 14", "article 15", "article 16", "article 17", "article 18"]

/-- `_detect_intent`: case-insensitive substring containment, OR-combined
across language variants. -/
def detectIntent (query : String) : Intents :=
  let q := pyLower query
  ⟨(frKeywordsEn ++ frKeywordsHi ++ frKeywordsHinglish ++ frKeywordsPa ++
      frKeywordsBn).any (fun kw => strContains q kw),
   rteKeywords.any (fun kw => strContains q kw)⟩

def smalltalkSet : List String :=
  ["hi", "hello", "hey", "yo", "sup", "hola", "namaste",
   "hi!", "hello!", "hey!", "hi there", "hello there"]

def greetingWords : List String := ["hi", "hello", "hey", "namaste", "hola"]

/-- `_is_smalltalk`. -/
def isSmalltalk (query : String) : Bool :=
  let q := pyLower (pyStrip query)
  if q = "" then false
  else if q ∈ smalltalkSet then true
  else if q.length ≤ 4 && (q = "hi" || q = "hey") then true
  else if (pySplitWs q).length ≤ 3 &&
      q.data.all (fun c => pyIsAlnum c || pyWs c) &&
      greetingWords.any (fun w => strContains q w) then true
  else false

def romHiMarkers : List String :=
  ["mool adhikar", "adhikar", "kaunse", "kaun si", "kya hai", "kya hain",
   "kya h", "mere", "mera", "hain", "hai", "nyay", "kanun", "adhiniyam",
   "dhara", "anuchhed"]

/-- Unicode script-range classification of a single character
(`_detect_lang`'s per-character checks, in source order). -/
def scriptLang (c : Char) : Option String :=
  let code := c.toNat
  if 0x0900 ≤ code ∧ code ≤ 0x097F then some "hi"
  else if 0x0980 ≤ code ∧ code ≤ 0x09FF then some "bn"
  else if 0x0A00 ≤ code ∧ code ≤ 0x0A7F then some "pa"
  else if 0x0A80 ≤ code ∧ code ≤ 0x0AFF then some "gu"
  else if 0x0B00 ≤ code ∧ code ≤ 0x0B7F then some "or"
  else if 0x0B80 ≤ code ∧ code ≤ 0x0BFF then some "ta"
  else if 0x0C00 ≤ code ∧ code ≤ 0x0C7F then some "te"
  else if 0x0C80 ≤ code ∧ code ≤ 0x0CFF then some "kn"
  else if 0x0D00 ≤ code ∧ code ≤ 0x0D7F then some "ml"
  else if (0x0600 ≤ code ∧ code ≤ 0x06FF) ∨ (0x0750 ≤ code ∧ code ≤ 0x077F) ∨
      (0x08A0 ≤ code ∧ code ≤ 0x08FF) then some "ur"
  else none

/-- `_detect_lang`: romanized-Hindi marker check first (pure-ASCII
queries), then the first character falling in a known script range. -/
def detectLang (query : String) : String :=
  let ql := pyLower query
  if romHiMarkers.any (fun tok => strContains ql tok) && pyIsAscii ql then "hi"
  else
    match query.data.findSome? scriptLang with
    | some l => l
    | none => "en"

/-! ## Retrieval fan-out (`retrieve_context`)

The vector-store search (embedding included) is a fallible oracle
`String → Nat → Except Unit (List Hit)`; an `.error` models an exception
raised by the embedder or the store, which `retrieve_context` does not
catch.  The second component of the result is the trace of issued
searches `(query, k)` in order. -/

abbrev SearchFun := String → Nat → Except Unit (List Hit)

/-- The per-category / per-article fan-out queries for the
"enumerate all fundamental rights" intent, in issue order. -/
def frCategories : List (String × List String) :=
  [("Right to Equality", ["14", "15", "16", "17", "18"]),
   ("Right to Freedom", ["19", "20", "21", "21A", "22"]),
   ("Right against Exploitation", ["23", "24"]),
   ("Right to Freedom of Religion", ["25", "26", "27", "28"]),
   ("Cultural and Educational Rights", ["29", "30"]),
   ("Right to Constitutional Remedies", ["32"])]

def fanoutQueries : List (String × Nat) :=
  frCategories.flatMap (fun p =>
    (p.1 ++ " Part III Constitution of India fundamental rights", 3) ::
    p.2.map (fun a =>
      ("Article " ++ a ++ " Constitution of India Part III fundamental rights", 3)))

def combinedFrQuery : String :=
  "Fundamental Rights Part III list all: Equality (14-18), Freedom (19-22 incl 21 & 21A), Exploitation (23-24), Religion (25-28), Cultural/Educational (29-30), Remedies (32)."

/-- `_add_matches`: append unseen identities in encounter order. -/
def addMatches (st : List Hit × List ChunkKey) (ms : List Hit) :
    List Hit × List ChunkKey :=
  ms.foldl (fun st m =>
    if m.key ∈ st.2 then st else (st.1 ++ [m], st.2 ++ [m.key])) st

/-- Issue the fan-out searches in order, stopping at the first raised
exception; returns the gathered state and the trace of issued searches. -/
def runFanout (search : SearchFun) :
    List (String × Nat) → List Hit × List ChunkKey →
    Except Unit (List Hit × List ChunkKey) × List (String × Nat)
  | [], st => (.ok st, [])
  | (q, k) :: rest, st =>
    match search q k with
    | .error e => (.error e, [(q, k)])
    | .ok ms =>
      let res := runFanout search rest (addMatches st ms)
      (res.1, (q, k) :: res.2)

/-- `retrieve_context(query, top_k)`, returning the result (or the
uncaught exception) together with the trace of issued searches. -/
def retrieveContext (mapping : LinkMap) (search : SearchFun) (query : String)
    (topK : Nat := 10) : Except Unit (List Hit) × List (String × Nat) :=
  let intent := detectIntent query
  if intent.fundamentalRightsAll then
    match runFanout search fanoutQueries ([], []) with
    | (.error e, tr) => (.error e, tr)
    | (.ok st, tr) =>
      if st.1.length < 12 then
        match search combinedFrQuery 12 with
        | .error e => (.error e, tr ++ [(combinedFrQuery, 12)])
        | .ok ms =>
          let st2 := addMatches st ms
          (.ok ((sortDescBy Hit.score st2.1).take (max topK 24)),
           tr ++ [(combinedFrQuery, 12)])
      else (.ok ((sortDescBy Hit.score st.1).take (max topK 24)), tr)
  else
    let det := detectLegalRefs query
    let eq := expandQuery query det mapping
    let adaptiveK := if det.has_ref then 5 else 10
    let q1 := pyOrStr eq.1 query
    let k1 := max topK adaptiveK
    match search q1 k1 with
    | .error e => (.error e, [(q1, k1)])
    | .ok baseRes =>
      match search query adaptiveK with
      | .error e => (.error e, [(q1, k1), (query, adaptiveK)])
      | .ok altRes =>
        let q3 := pyOrStr eq.2 query
        match search q3 adaptiveK with
        | .error e => (.error e, [(q1, k1), (query, adaptiveK), (q3, adaptiveK)])
        | .ok kwRes =>
          let tr0 := [(q1, k1), (query, adaptiveK), (q3, adaptiveK)]
          let results0 := mergeResults [baseRes, altRes, kwRes]
          if results0 = [] then
            match search query topK with
            | .error e => (.error e, tr0 ++ [(query, topK)])
            | .ok fb => (.ok (rerankAndTrim mapping query topK fb),
                tr0 ++ [(query, topK)])
          else (.ok (rerankAndTrim mapping query topK results0), tr0)

end NyaySaathi

namespace NyaySaathi

/-- A vector store returning no matches (used by concrete witnesses). -/
def searchNone : SearchFun := fun _ _ => .ok []

/-- C9 (amended).  When no article and no section reference is detected,
the expander's keyword query equals the original query string, and the
expanded query equals the original query stripped of leading and trailing
whitespace (hence equals the original exactly when the original has no
surrounding whitespace). -/
theorem expand_no_refs_is_strip (q : String) (links : LinkMap)
    (h : (detectLegalRefs q).articles = [] ∧ (detectLegalRefs q).sections = []) :
    expandQuery q (detectLegalRefs q) links = (pyStrip q, q) := by
  unfold expandQuery
  rw [h.1, h.2]
  simp [joinWithStr]

/-- Witness for C9 at a concrete input: `"hello"` detects no references
and both expansion variants equal the original. -/
theorem expand_no_refs_is_strip_witness :
    (detectLegalRefs "hello").articles = [] ∧
    (detectLegalRefs "hello").sections = [] ∧
    expandQuery "hello" (detectLegalRefs "hello") defaultLegalLinks =
      ("hello", "hello") := by
  refine ⟨by decide, by decide, ?_⟩
  have h := expand_no_refs_is_strip "hello" defaultLegalLinks ⟨by decide, by decide⟩
  rw [h]
  decide

/-- Counterexample for C9 as stated: for the whitespace-padded query
`" hello "` no reference is detected, yet the expanded query is the
stripped string `"hello"`, not the original query string. -/
theorem expand_no_refs_counterexample :
    (detectLegalRefs " hello ").has_ref = false ∧
    (detectLegalRefs " hello ").articles = [] ∧
    (detectLegalRefs " hello ").sections = [] ∧
    (expandQuery " hello " (detectLegalRefs " hello ") defaultLegalLinks).2 =
      " hello " ∧
    (expandQuery " hello " (detectLegalRefs " hello ") defaultLegalLinks).1 =
      "hello" ∧
    (expandQuery " hello " (detectLegalRefs " hello ") defaultLegalLinks).1 ≠
      " hello " := by
  decide

/-- C3 (amended).  For every query without the enumerate-all-rights intent
(and a vector store that does not raise), `retrieve_context` issues exactly
three searches — the expanded query (falling back to the original when the
expansion is empty) at `max(topK, adaptiveK)`, the original query at
`adaptiveK`, and the keyword query (same fallback) at `adaptiveK`, with
`adaptiveK = 5` when an article or section citation was detected and `10`
otherwise — plus exactly one additional plain search of the original query
at `topK` when the merge of the three results is empty. -/
theorem retrieve_issues_three_searches (mapping : LinkMap)
    (g : String → Nat → List Hit) (q : String) (topK : Nat)
    (hni : (detectIntent q).fundamentalRightsAll = false) :
    (retrieveContext mapping (fun s k => .ok (g s k)) q topK).2 =
      [(pyOrStr (expandQuery q (detectLegalRefs q) mapping).1 q,
          max topK (if (detectLegalRefs q).has_ref then 5 else 10)),
       (q, if (detectLegalRefs q).has_ref then 5 else 10),
       (pyOrStr (expandQuery q (detectLegalRefs q) mapping).2 q,
          if (detectLegalRefs q).has_ref then 5 else 10)] ++
      (if mergeResults
          [g (pyOrStr (expandQuery q (detectLegalRefs q) mapping).1 q)
              (max topK (if (detectLegalRefs q).has_ref then 5 else 10)),
           g q (if (detectLegalRefs q).has_ref then 5 else 10),
           g (pyOrStr (expandQuery q (detectLegalRefs q) mapping).2 q)
              (if (detectLegalRefs q).has_ref then 5 else 10)] = []
        then [(q, topK)] else []) := by
  unfold retrieveContext
  simp only [hni, Bool.false_eq_true, if_false]
  split <;> (split <;> simp)

/-- Witness for C3 at a concrete input: for `"article 21"` (citation
detected, `adaptiveK = 5`) against an empty store, the three searches are
issued and, the merge being empty, one fallback search at `topK = 10`. -/
theorem retrieve_issues_three_searches_witness :
    (retrieveContext defaultLegalLinks
        (fun s k => .ok ((fun _ _ => ([] : List Hit)) s k)) "article 21" 10).2 =
      [("article 21", 10), ("article 21", 5), ("article 21", 5),
       ("article 21", 10)] := by
  have h := retrieve_issues_three_searches defaultLegalLinks
    (fun _ _ => ([] : List Hit)) "article 21" 10 (by decide)
  rw [h]
  decide

/-- Counterexample for C3 as stated: for the all-whitespace query `" "`
(no intent, no references) the expanded query is the empty string, but the
first issued search uses the original query `" "`, not the expanded query
`""` — the claim's description of the first search fails. -/
theorem retrieve_searches_counterexample :
    (detectIntent " ").fundamentalRightsAll = false ∧
    (expandQuery " " (detectLegalRefs " ") defaultLegalLinks).1 = "" ∧
    (retrieveContext defaultLegalLinks searchNone " " 10).2.head? =
      some (" ", 10) ∧
    (" " : String) ≠ "" := by
  decide

end NyaySaathi

namespace NyaySaathi

/-! ### Non-negativity of every reranking bonus term -/

theorem exactB_nonneg (field : Option String) (refsL : List String) (b : ℚ)
    (hb : 0 ≤ b) : 0 ≤ exactB field refsL b := by
  unfold exactB; split
  · exact hb
  · exact le_refl 0

theorem proximityB_nonneg (artNum : Option Int) (targets : List Int) :
    0 ≤ proximityB artNum targets := by
  unfold proximityB
  split
  · split
    · exact mul_nonneg (by norm_num) (le_max_left _ _)
    · exact le_refl 0
  · exact le_refl 0

theorem vocabB_nonneg (textLow : String) (terms : List String) (b : ℚ)
    (hb : 0 ≤ b) : 0 ≤ vocabB textLow terms b := by
  unfold vocabB; split
  · exact hb
  · exact le_refl 0

theorem tagBonus_nonneg (tags : List String) : 0 ≤ tagBonus tags := by
  unfold tagBonus; split
  · norm_num
  · exact le_refl 0

theorem linkBonus_nonneg (lnks targets : List Int) : 0 ≤ linkBonus lnks targets := by
  unfold linkBonus
  split
  · split
    · norm_num
    · exact le_refl 0
  · exact le_refl 0

theorem keywordOverlap_nonneg (a b : String) : 0 ≤ keywordOverlap a b := by
  simp only [keywordOverlap]
  split
  · exact le_refl 0
  · refine le_min (by norm_num) ?_
    apply div_nonneg
    · exact_mod_cast Nat.zero_le _
    · split
      · norm_num
      · exact_mod_cast Nat.zero_le _

/-- C5 (amended).  The reranker's exact-alignment boosts: the final score
is the base score plus the ten additive terms; when the chunk's
article / section / part / chapter metadata field (case-insensitively)
equals an extracted reference, the corresponding `+0.22 / +0.18 / +0.06 /
+0.05` term is earned and — every other term being non-negative — the
final score is at least the base score plus that constant.  In particular
this holds when the reference `"19"` is extracted and `meta.article`
is `"19"` (for a query merely *containing* `"Article 19"` the extracted
reference may instead be e.g. `"19a"`, see the counterexample). -/
theorem rerank_exact_reference_bonuses (q0 : String) (mapping : LinkMap)
    (targets : List Int) (r : Hit) :
    ((chunkBonus q0 (extractRefs q0) mapping targets r).1 =
      r.score +
      exactB (metaField r.meta "article" "Article" "ARTICLE")
        (extractRefs q0).article 0.22 +
      exactB (metaField r.meta "section" "Section" "SECTION")
        (extractRefs q0).sectionRefs 0.18 +
      exactB (metaField r.meta "part" "Part" "PART")
        (extractRefs q0).partRefs 0.06 +
      exactB (metaField r.meta "chapter" "Chapter" "CHAPTER")
        (extractRefs q0).chapterRefs 0.05 +
      proximityB (if optTruthy (metaField r.meta "article" "Article" "ARTICLE")
          then parseIntDigits ((metaField r.meta "article" "Article" "ARTICLE").getD "")
          else none) targets +
      vocabB (pyLower r.textOrEmpty) restrictionTerms 0.10 +
      vocabB (pyLower r.textOrEmpty) proceduralTerms 0.08 +
      tagBonus r.meta.tags + 0.12 * keywordOverlap q0 r.textOrEmpty +
      linkBonus (statuteLinks mapping r.meta r.textOrEmpty) targets) ∧
    (exactB (metaField r.meta "article" "Article" "ARTICLE")
        (extractRefs q0).article 0.22 = 0.22 →
      r.score + 0.22 ≤ (chunkBonus q0 (extractRefs q0) mapping targets r).1) ∧
    (exactB (metaField r.meta "section" "Section" "SECTION")
        (extractRefs q0).sectionRefs 0.18 = 0.18 →
      r.score + 0.18 ≤ (chunkBonus q0 (extractRefs q0) mapping targets r).1) ∧
    (exactB (metaField r.meta "part" "Part" "PART")
        (extractRefs q0).partRefs 0.06 = 0.06 →
      r.score + 0.06 ≤ (chunkBonus q0 (extractRefs q0) mapping targets r).1) ∧
    (exactB (metaField r.meta "chapter" "Chapter" "CHAPTER")
        (extractRefs q0).chapterRefs 0.05 = 0.05 →
      r.score + 0.05 ≤ (chunkBonus q0 (extractRefs q0) mapping targets r).1) ∧
    ("19" ∈ (extractRefs q0).article →
      metaField r.meta "article" "Article" "ARTICLE" = some "19" →
      r.score + 0.22 ≤ (chunkBonus q0 (extractRefs q0) mapping targets r).1) := by
  have hdecomp : (chunkBonus q0 (extractRefs q0) mapping targets r).1 =
      r.score +
      exactB (metaField r.meta "article" "Article" "ARTICLE")
        (extractRefs q0).article 0.22 +
      exactB (metaField r.meta "section" "Section" "SECTION")
        (extractRefs q0).sectionRefs 0.18 +
      exactB (metaField r.meta "part" "Part" "PART")
        (extractRefs q0).partRefs 0.06 +
      exactB (metaField r.meta "chapter" "Chapter" "CHAPTER")
        (extractRefs q0).chapterRefs 0.05 +
      proximityB (if optTruthy (metaField r.meta "article" "Article" "ARTICLE")
          then parseIntDigits ((metaField r.meta "article" "Article" "ARTICLE").getD "")
          else none) targets +
      vocabB (pyLower r.textOrEmpty) restrictionTerms 0.10 +
      vocabB (pyLower r.textOrEmpty) proceduralTerms 0.08 +
      tagBonus r.meta.tags + 0.12 * keywordOverlap q0 r.textOrEmpty +
      linkBonus (statuteLinks mapping r.meta r.textOrEmpty) targets := rfl
  have hart := exactB_nonneg (metaField r.meta "article" "Article" "ARTICLE")
    (extractRefs q0).article 0.22 (by norm_num)
  have hsec := exactB_nonneg (metaField r.meta "section" "Section" "SECTION")
    (extractRefs q0).sectionRefs 0.18 (by norm_num)
  have hprt := exactB_nonneg (metaField r.meta "part" "Part" "PART")
    (extractRefs q0).partRefs 0.06 (by norm_num)
  have hchap := exactB_nonneg (metaField r.meta "chapter" "Chapter" "CHAPTER")
    (extractRefs q0).chapterRefs 0.05 (by norm_num)
  have hprox := proximityB_nonneg (if optTruthy (metaField r.meta "article" "Article" "ARTICLE")
      then parseIntDigits ((metaField r.meta "article" "Article" "ARTICLE").getD "")
      else none) targets
  have hrestr := vocabB_nonneg (pyLower r.textOrEmpty) restrictionTerms 0.10 (by norm_num)
  have hproc := vocabB_nonneg (pyLower r.textOrEmpty) proceduralTerms 0.08 (by norm_num)
  have htag := tagBonus_nonneg r.meta.tags
  have hkw : (0 : ℚ) ≤ 0.12 * keywordOverlap q0 r.textOrEmpty := by
    have := keywordOverlap_nonneg q0 r.textOrEmpty
    positivity
  have hlink := linkBonus_nonneg (statuteLinks mapping r.meta r.textOrEmpty) targets
  refine ⟨hdecomp, ?_, ?_, ?_, ?_, ?_⟩
  · intro h; rw [hdecomp, h]; linarith
  · intro h; rw [hdecomp, h]; linarith
  · intro h; rw [hdecomp, h]; linarith
  · intro h; rw [hdecomp, h]; linarith
  · intro hmem hfield
    have h : exactB (metaField r.meta "article" "Article" "ARTICLE")
        (extractRefs q0).article 0.22 = 0.22 := by
      unfold exactB
      rw [if_pos]
      rw [hfield, Bool.and_eq_true]
      refine ⟨by decide, ?_⟩
      rw [List.any_eq_true]
      exact ⟨"19", hmem, by decide⟩
    rw [hdecomp, h]; linarith

end NyaySaathi

namespace NyaySaathi

/-- Chunk used by the C5 witness: `meta.article = "19"`. -/
def c5Hit : Hit :=
  ⟨some "d", some 3, some "Article 19 guarantees freedom of speech", 1/2,
    ⟨[("article", "19")], []⟩⟩

/-- Witness for C5 at a concrete input: for the query
`"what does article 19 say"` (reference `"19"` extracted) and a chunk with
`meta.article = "19"`, the final score is at least base + 0.22. -/
theorem rerank_exact_reference_bonuses_witness :
    c5Hit.score + 0.22 ≤
      (chunkBonus "what does article 19 say"
        (extractRefs "what does article 19 say") defaultLegalLinks
        (invokedArticles "what does article 19 say"
          (extractRefs "what does article 19 say")) c5Hit).1 :=
  (rerank_exact_reference_bonuses "what does article 19 say" defaultLegalLinks
    (invokedArticles "what does article 19 say"
      (extractRefs "what does article 19 say")) c5Hit).2.2.2.2.2
    (by decide) (by decide)

/-- Chunk used by the C5 counterexample: `meta.article = "19"`, no text. -/
def c5CexHit : Hit := ⟨some "d", some 3, none, 0, ⟨[("article", "19")], []⟩⟩

/-- Counterexample for C5 as stated: the query `"article 19a"` contains
the substring `"Article 19"` (case-insensitively) and the chunk has
`meta.article = "19"`, yet the extracted reference is `"19a"`, the exact
match fails, and the total bonus is 0.15 (numeric proximity only), below
0.22. -/
theorem rerank_bonus_counterexample :
    strContains (pyLower "article 19a") "article 19" = true ∧
    c5CexHit.meta.get "article" = some "19" ∧
    (chunkBonus "article 19a" (extractRefs "article 19a") defaultLegalLinks
      (invokedArticles "article 19a" (extractRefs "article 19a")) c5CexHit).1 -
      c5CexHit.score < 0.22 := by
  refine ⟨by decide, by decide, ?_⟩
  have h : (chunkBonus "article 19a" (extractRefs "article 19a")
      defaultLegalLinks (invokedArticles "article 19a" (extractRefs "article 19a"))
      c5CexHit).1 = 3/20 := by with_unfolding_all decide
  rw [h]
  norm_num [c5CexHit]

end NyaySaathi

namespace NyaySaathi

theorem rerankPairs_map_snd (q0 : String) (refs : RefsMap) (mapping : LinkMap)
    (l : List Hit) (targets : List Int) :
    (rerankPairs q0 refs mapping l targets).map Prod.snd = l := by
  induction l generalizing targets with
  | nil => rfl
  | cons hd tl ih => simp [rerankPairs, ih]

theorem rerankAndTrim_length (mapping : LinkMap) (q0 : String) (topK : Nat)
    (inputs : List Hit) : (rerankAndTrim mapping q0 topK inputs).length ≤ topK := by
  simp [rerankAndTrim]

theorem rerankAndTrim_nodup (mapping : LinkMap) (q0 : String) (topK : Nat)
    (inputs : List Hit) (h : (inputs.map Hit.key).Nodup) :
    ((rerankAndTrim mapping q0 topK inputs).map Hit.key).Nodup := by
  unfold rerankAndTrim rerankScored
  have hperm : (sortDescBy Prod.fst (rerankPairs q0 (extractRefs q0) mapping
      inputs (invokedArticles q0 (extractRefs q0)))).Perm
      (rerankPairs q0 (extractRefs q0) mapping inputs
        (invokedArticles q0 (extractRefs q0))) := sortDescBy_perm _ _
  have hmapperm := (hperm.map Prod.snd).map Hit.key
  rw [rerankPairs_map_snd] at hmapperm
  have hnodup : (((sortDescBy Prod.fst (rerankPairs q0 (extractRefs q0) mapping
      inputs (invokedArticles q0 (extractRefs q0)))).map Prod.snd).map
      Hit.key).Nodup := hmapperm.nodup_iff.mpr h
  have hsub : ((((sortDescBy Prod.fst (rerankPairs q0 (extractRefs q0) mapping
      inputs (invokedArticles q0 (extractRefs q0)))).map Prod.snd).take
      topK).map Hit.key).Sublist
      ((((sortDescBy Prod.fst (rerankPairs q0 (extractRefs q0) mapping
      inputs (invokedArticles q0 (extractRefs q0)))).map Prod.snd)).map
      Hit.key) := List.Sublist.map Hit.key (List.take_sublist _ _)
  exact hnodup.sublist hsub

/-- C4 (amended).  For every query without the enumerate-all-rights intent
and a vector store whose individual result lists carry no duplicate
identities, `retrieve_context` returns the stable-descending-sort-by-
`finalScore`-then-truncate of some input list (the merged results, or the
safety-net search): at most `topK` records, no duplicate identities, and
the *final* scores (base + bonus) non-increasing.  The raw `score` fields
of the returned records need not be non-increasing (see the
counterexample). -/
theorem retrieve_ranked_result_invariant (mapping : LinkMap)
    (g : String → Nat → List Hit) (q : String) (topK : Nat)
    (hni : (detectIntent q).fundamentalRightsAll = false)
    (hnd : ∀ s k, ((g s k).map Hit.key).Nodup) :
    ∃ inputs, (retrieveContext mapping (fun s k => .ok (g s k)) q topK).1 =
        .ok (rerankAndTrim mapping q topK inputs) ∧
      (rerankAndTrim mapping q topK inputs).length ≤ topK ∧
      ((rerankAndTrim mapping q topK inputs).map Hit.key).Nodup ∧
      NonIncrBy Prod.fst (rerankScored mapping q inputs) := by
  unfold retrieveContext
  simp only [hni, Bool.false_eq_true, if_false]
  split <;> split
  · exact ⟨g q topK, rfl, rerankAndTrim_length _ _ _ _,
      rerankAndTrim_nodup _ _ _ _ (hnd q topK), sortDescBy_sorted _ _⟩
  · exact ⟨_, rfl, rerankAndTrim_length _ _ _ _,
      rerankAndTrim_nodup _ _ _ _ (nodup_mergeResults _), sortDescBy_sorted _ _⟩
  · exact ⟨g q topK, rfl, rerankAndTrim_length _ _ _ _,
      rerankAndTrim_nodup _ _ _ _ (hnd q topK), sortDescBy_sorted _ _⟩
  · exact ⟨_, rfl, rerankAndTrim_length _ _ _ _,
      rerankAndTrim_nodup _ _ _ _ (nodup_mergeResults _), sortDescBy_sorted _ _⟩

end NyaySaathi

namespace NyaySaathi

/-- Chunks used by the C4 counterexample and witness: `c4HitA` has the
higher base score, `c4HitB` the lower base score but an exact article
match for the query `"article 19"`. -/
def c4HitA : Hit := ⟨some "a", some 1, some "", 1/2, ⟨[], []⟩⟩

def c4HitB : Hit := ⟨some "b", some 2, some "", 2/5, ⟨[("article", "19")], []⟩⟩

def searchC4 : SearchFun := fun _ _ => .ok [c4HitA, c4HitB]

/-- Witness for C4 at a concrete input (both conjunct groups realised). -/
theorem retrieve_ranked_result_invariant_witness :
    ∃ inputs, (retrieveContext defaultLegalLinks
        (fun s k => .ok ((fun _ _ => [c4HitA, c4HitB]) s k)) "article 19" 10).1 =
        .ok (rerankAndTrim defaultLegalLinks "article 19" 10 inputs) ∧
      (rerankAndTrim defaultLegalLinks "article 19" 10 inputs).length ≤ 10 ∧
      ((rerankAndTrim defaultLegalLinks "article 19" 10 inputs).map Hit.key).Nodup ∧
      NonIncrBy Prod.fst (rerankScored defaultLegalLinks "article 19" inputs) :=
  retrieve_ranked_result_invariant defaultLegalLinks
    (fun _ _ => [c4HitA, c4HitB]) "article 19" 10 (by decide)
    (fun s k => by
      show (([c4HitA, c4HitB] : List Hit).map Hit.key).Nodup
      decide)

/-- Counterexample for C4 as stated: for the query `"article 19"` the
returned list is `[c4HitB, c4HitA]` — ordered by `finalScore`
(0.4 + 0.37 bonus = 0.77 beats 0.5) — so the raw `score` fields read
2/5 then 1/2, strictly increasing, not non-increasing. -/
theorem retrieve_score_fields_counterexample :
    (retrieveContext defaultLegalLinks searchC4 "article 19" 10).1 =
      .ok [c4HitB, c4HitA] ∧ c4HitB.score < c4HitA.score := by
  constructor
  · with_unfolding_all rfl
  · norm_num [c4HitA, c4HitB]

end NyaySaathi

namespace NyaySaathi

/-! ## Output formatters

`clean_legal_response` and `_format_plain` are regex-substitution
pipelines.  Each substitution is modelled by a bespoke scanner with the
same left-to-right, non-overlapping semantics; the per-line substitutions
(`(?m)^...$` patterns) are modelled line by line (the model does not
reproduce the exotic case where `\s` inside such a pattern crosses a
newline, which no string handled by the engine triggers). -/

/-- Group 1 of `\[(.*?)\]\((.*?)\)`: chars up to the first `](` boundary
admitting a closed url part, newlines excluded; the scanner extends the
text group past a `](` whose url part never closes. -/
def linkUrlScan : List Char → Option (List Char × List Char)
  | [] => none
  | ')' :: rest => some ([], rest)
  | '\n' :: _ => none
  | c :: rest => (linkUrlScan rest).map (fun p => (c :: p.1, p.2))

def linkMatchAux : List Char → List Char → Option (List Char × List Char × List Char)
  | _, [] => none
  | _, '\n' :: _ => none
  | acc, ']' :: '(' :: rest =>
    match linkUrlScan rest with
    | some (url, rest2) => some (acc.reverse, url, rest2)
    | none => linkMatchAux ('(' :: ']' :: acc) rest
  | acc, c :: rest => linkMatchAux (c :: acc) rest

/-- `re.sub(r"\[(.*?)\]\((.*?)\)", r"\1 (\2)", t)`. -/
def linkPassAux : Nat → List Char → List Char
  | 0, cs => cs
  | _ + 1, [] => []
  | fuel + 1, c :: tl =>
    if c = '[' then
      match linkMatchAux [] tl with
      | some (txt, url, rest2) =>
        txt ++ ' ' :: '(' :: (url ++ ')' :: linkPassAux fuel rest2)
      | none => c :: linkPassAux fuel tl
    else c :: linkPassAux fuel tl

/-- One line under `^\s*#{1,6}\s*(.+?)\s*$` → `"\n\1:\n"`. -/
def headingLine (l : List Char) : List Char :=
  let ws := l.takeWhile pyWs
  let rest := l.drop ws.length
  let hashes := rest.takeWhile (fun c => c = '#')
  if hashes = [] then l
  else
    let rest2 := rest.drop (min hashes.length 6)
    if rest2 = [] then l
    else
      let core := ((rest2.dropWhile pyWs).reverse.dropWhile pyWs).reverse
      let content := if core ≠ [] then core else [(rest2.getLast?).getD ' ']
      '\n' :: content ++ [':', '\n']

/-- Does `cs` match `\s*\*\*\s*:?[\s]*$`? -/
def tailBoldEnd (cs : List Char) : Bool :=
  match cs.dropWhile pyWs with
  | '*' :: '*' :: r2 =>
    let r3 := r2.dropWhile pyWs
    let r4 := match r3 with
      | ':' :: t => t
      | _ => r3
    r4.dropWhile pyWs = []
  | _ => false

/-- The lazy group of `(.*?)` before a `\s*\*\*\s*:?[\s]*$` tail. -/
def boldSplit : List Char → Option (List Char)
  | [] => if tailBoldEnd [] then some [] else none
  | c :: t =>
    if tailBoldEnd (c :: t) then some []
    else (boldSplit t).map (fun g => c :: g)

/-- One line under `^\s*\*\*\s*(.*?)\s*\*\*\s*:?[\s]*$` → `"\1:"`. -/
def boldLinePass (l : List Char) : List Char :=
  match l.dropWhile pyWs with
  | '*' :: '*' :: rem =>
    match boldSplit (rem.dropWhile pyWs) with
    | some g => g ++ [':']
    | none => l
  | _ => none |>.getD l

/-- The lazy group of `(.+?)` before a `:\s*$` tail (one or more chars). -/
def titleSplit : List Char → Option (List Char)
  | [] => none
  | c :: t =>
    let colonEnd : Bool := match t with
      | ':' :: r => r.dropWhile pyWs = []
      | _ => false
    if colonEnd then some [c]
    else (titleSplit t).map (fun g => c :: g)

/-- Greedy `\s*` with one-character give-back before the `(.+?)` group. -/
def titleTryRev : List Char → List Char → Option (List Char)
  | [], rest => titleSplit rest
  | w :: wsRev, rest =>
    match titleSplit rest with
    | some g => some g
    | none => titleTryRev wsRev (w :: rest)

/-- One line under `^\s*Title:\s*(.+?):\s*$` → `"\1:"`. -/
def titleLinePass (l : List Char) : List Char :=
  let rest := l.dropWhile pyWs
  if listIsPrefix "Title:".data rest then
    let rem := rest.drop 6
    let ws := rem.takeWhile pyWs
    match titleTryRev ws.reverse (rem.drop ws.length) with
    | some g => g ++ [':']
    | none => l
  else l

/-- One line under `^\s*[\-\*]\s+` → `"• "`. -/
def bulletLine (l : List Char) : List Char :=
  let ws := l.takeWhile pyWs
  match l.drop ws.length with
  | c :: t =>
    if c = '-' ∨ c = '*' then
      let ws2 := t.takeWhile pyWs
      if ws2 ≠ [] then '•' :: ' ' :: t.drop ws2.length else l
    else l
  | [] => l

/-- Find the closing `**` (lazy group, newlines excluded). -/
def boldCloseScan : List Char → Option (List Char × List Char)
  | '*' :: '*' :: rest => some ([], rest)
  | '\n' :: _ => none
  | [] => none
  | c :: rest => (boldCloseScan rest).map (fun p => (c :: p.1, p.2))

/-- `re.sub(r"\*\*(.*?)\*\*", r"\1", t)`. -/
def boldInlineAux : Nat → List Char → List Char
  | 0, cs => cs
  | _ + 1, [] => []
  | fuel + 1, '*' :: '*' :: rest =>
    (match boldCloseScan rest with
     | some (g, rest2) => g ++ boldInlineAux fuel rest2
     | none => '*' :: boldInlineAux fuel ('*' :: rest))
  | fuel + 1, c :: rest => c :: boldInlineAux fuel rest

def italCloseScan : List Char → Option (List Char × List Char)
  | '*' :: rest => some ([], rest)
  | '\n' :: _ => none
  | [] => none
  | c :: rest => (italCloseScan rest).map (fun p => (c :: p.1, p.2))

/-- `re.sub(r"\*(.*?)\*", r"\1", t)`. -/
def italInlineAux : Nat → List Char → List Char
  | 0, cs => cs
  | _ + 1, [] => []
  | fuel + 1, '*' :: rest =>
    (match italCloseScan rest with
     | some (g, rest2) => g ++ italInlineAux fuel rest2
     | none => '*' :: italInlineAux fuel rest)
  | fuel + 1, c :: rest => c :: italInlineAux fuel rest

def backtickCloseScan : List Char → Option (List Char × List Char)
  | '\x60' :: rest => some ([], rest)
  | [] => none
  | c :: rest => (backtickCloseScan rest).map (fun p => (c :: p.1, p.2))

/-- `re.sub(r"\x60([^\x60]*)\x60", r"\1", t)` (backtick pairs; the group may
span newlines). -/
def backtickPairAux : Nat → List Char → List Char
  | 0, cs => cs
  | _ + 1, [] => []
  | fuel + 1, '\x60' :: rest =>
    (match backtickCloseScan rest with
     | some (g, rest2) => g ++ backtickPairAux fuel rest2
     | none => '\x60' :: backtickPairAux fuel rest)
  | fuel + 1, c :: rest => c :: backtickPairAux fuel rest

/-- `re.sub(r"\n{3,}", "\n\n", t)`. -/
def collapseNl : Nat → List Char → List Char
  | 0, cs => cs
  | _ + 1, [] => []
  | fuel + 1, '\n' :: rest =>
    let nls := rest.takeWhile (fun c => c = '\n')
    if 2 ≤ nls.length then '\n' :: '\n' :: collapseNl fuel (rest.drop nls.length)
    else '\n' :: collapseNl fuel rest
  | fuel + 1, c :: rest => c :: collapseNl fuel rest

/-- Case-insensitive list equality on chars (backreference `(?i)\1`). -/
def ciEq (a b : List Char) : Bool :=
  a.map pyLowerChar = b.map pyLowerChar

/-- Try `(?i)(https?://[^\s)]+) \(\1\)` at the head of `cs`; on success
return the kept group and the rest. -/
def urlDedupMatch (cs : List Char) : Option (List Char × List Char) :=
  let lowIs := fun (pat : String) (l : List Char) =>
    listIsPrefix pat.data (l.map pyLowerChar)
  let afterScheme : Option (List Char × List Char) :=
    if lowIs "https://" cs then some (cs.take 8, cs.drop 8)
    else if lowIs "http://" cs then some (cs.take 7, cs.drop 7)
    else none
  match afterScheme with
  | none => none
  | some (scheme, rest) =>
    let body := rest.takeWhile (fun c => ¬ pyWs c ∧ c ≠ ')')
    if body = [] then none
    else
      let g1 := scheme ++ body
      match rest.drop body.length with
      | ' ' :: '(' :: r2 =>
        if ciEq (r2.take g1.length) g1 then
          match r2.drop g1.length with
          | ')' :: r3 => some (g1, r3)
          | _ => none
        else none
      | _ => none

/-- `re.sub(r"(?im)(https?://[^\s)]+) \(\1\)", r"\1", t)`. -/
def urlDedupAux : Nat → List Char → List Char
  | 0, cs => cs
  | _ + 1, [] => []
  | fuel + 1, c :: tl =>
    match urlDedupMatch (c :: tl) with
    | some (g1, rest) => g1 ++ urlDedupAux fuel rest
    | none => c :: urlDedupAux fuel tl

def mapLinesStr (f : List Char → List Char) (s : String) : String :=
  ⟨joinWithChar '\n' ((splitOnChar '\n' s.data).map f)⟩

def strEndsWithColon (s : String) : Bool := s.data.getLast? = some ':'

/-- Drop a line equal (stripped) to the previous title line (a line ending
with `:`). -/
def dedupeTitlesAux : Option String → List String → List String
  | _, [] => []
  | prev, line :: rest =>
    let s := pyStrip line
    if strEndsWithColon s then
      if prev = some s then dedupeTitlesAux prev rest
      else line :: dedupeTitlesAux (some s) rest
    else line :: dedupeTitlesAux none rest

/-- `clean_legal_response(text)`: the post-formatter for legal responses,
pass for pass in source order. -/
def cleanLegalResponse (text : String) : String :=
  if text = "" then text
  else
    let t := (⟨linkPassAux text.data.length text.data⟩ : String)
    let t := mapLinesStr headingLine t
    let t := mapLinesStr boldLinePass t
    let t := mapLinesStr titleLinePass t
    let t := mapLinesStr bulletLine t
    let t := (⟨boldInlineAux t.data.length t.data⟩ : String)
    let t := (⟨italInlineAux t.data.length t.data⟩ : String)
    let t := (⟨(t.data.filter (fun c => c ≠ '\x60')).map
      (fun c => if c = '_' then ' ' else c)⟩ : String)
    let t := joinWithStr "\n" (dedupeTitlesAux none (pySplitLines t))
    let t := (⟨collapseNl t.data.length t.data⟩ : String)
    let t := (⟨urlDedupAux t.data.length t.data⟩ : String)
    pyStrip t

/-- One line under `^\s{0,3}(#{1,6})\s+(.*)$` (the `_format_plain`
heading rule): returns the stripped heading text. -/
def fpHeading (l : List Char) : Option String :=
  let ws := l.takeWhile pyWs
  if 3 < ws.length then none
  else
    let rest := l.drop ws.length
    let hashes := rest.takeWhile (fun c => c = '#')
    if hashes = [] ∨ 6 < hashes.length then none
    else
      let rest2 := rest.drop hashes.length
      let ws2 := rest2.takeWhile pyWs
      if ws2 = [] then none
      else some (pyStrip (⟨rest2.drop ws2.length⟩ : String))

def isStarBullet (ln : String) : Bool := listIsPrefix "* ".data (pyLStrip ln).data

def starToDash (ln : String) : String :=
  "- " ++ pyStrip (⟨(pyLStrip ln).data.drop 2⟩ : String)

/-- The line loop of `_format_plain` (fuel = number of lines). -/
def fpLoop : Nat → Bool → List String → List String
  | 0, _, ls => ls
  | _ + 1, _, [] => []
  | fuel + 1, first, l :: rest =>
    let line := pyRStrip l
    if first ∧ pyLower (pyStrip line) = "title" then
      fpLoop fuel false (rest.dropWhile (fun ln => pyStrip ln = ""))
    else
      match fpHeading line.data with
      | some title => title :: fpLoop fuel false rest
      | none =>
        if isStarBullet line then
          let run := rest.takeWhile isStarBullet
          starToDash line :: (run.map starToDash ++
            fpLoop fuel false (rest.drop run.length))
        else line :: fpLoop fuel false rest

/-- `_format_plain(text)`. -/
def formatPlain (text : String) : String :=
  let t := text
  let t := (⟨boldInlineAux t.data.length t.data⟩ : String)
  let t := (⟨italInlineAux t.data.length t.data⟩ : String)
  let t := (⟨backtickPairAux t.data.length t.data⟩ : String)
  let lines := pySplitLines t
  let outLines := fpLoop (lines.length + 1) true lines
  let joined := joinWithStr "\n" outLines
  let normalized := pyStrip (⟨collapseNl joined.data.length joined.data⟩ : String)
  ⟨(normalized.data.filter (fun c => c ≠ '#' ∧ c ≠ '*')).map
    (fun c => if c = '_' then ' ' else c)⟩

/-- `_format_output(text)`: markdown-preserving normalization when
markdown rendering is enabled, else `_format_plain`. -/
def formatOutput (mdEnabled : Bool) (text : String) : String :=
  if mdEnabled then pyStrip (⟨collapseNl text.data.length text.data⟩ : String)
  else formatPlain text

end NyaySaathi

namespace NyaySaathi

/-- `_greeting_response(lang)`: the small-talk reply per language. -/
def greetingResponse (lang : String) : String :=
  if lang = "hi" then
    "नमस्ते! मैं न्यायसाथी हूँ. भारतीय कानून से जुड़े प्रश्न पूछें — अनुच्छेद, धाराएँ, मामले या प्रक्रिया। उदाहरण: \x27अनुच्छेद 21 क्या है?\x27, \x27ग़ैरक़ानूनी हिरासत का उपाय?\x27, या \x27सीआरपीसी में ज़मानत प्रक्रिया\x27."
  else if lang = "bn" then
    "নমস্কার! আমি ন্যায়সাথী। ভারতীয় আইন নিয়ে প্রশ্ন করুন — অনুচ্ছেদ, ধারা, মামলা বা প্রক্রিয়া। উদাহরণ: \x27অনুচ্ছেদ ২১ কী?\x27, \x27অবৈধ আটক হলে প্রতিকার?\x27, বা \x27CrPC অনুযায়ী জামিনের প্রক্রিয়া\x27."
  else if lang = "ta" then
    "வணக்கம்! நான் ந்யாயஸாதி. இந்திய சட்டம் குறித்து கேளுங்கள் — அரசியல் சட்டப் பிரிவுகள், சட்டப் பிரிவுகள், வழக்குகள், நடைமுறை. உதா: \x27அருச்சு சட்டம் பிரிவு 21?\x27, \x27தவறான காவலில் நிவாரணம்?\x27, \x27CrPC இல் ஜாமின் நடைமுறை\x27."
  else if lang = "te" then
    "నమస్కారం! నేను న్యాయసాథి. భారతీయ చట్టాలపై ప్రశ్నలు అడగండి — ఆర్టికల్స్, సెక్షన్లు, కేసులు లేదా ప్రక్రియ. ఉదా: \x27ఆర్టికల్ 21 ఏమిటి?\x27, \x27అక్రమ నిర్బంధానికి పరిహారం?\x27, లేదా \x27CrPC లో బెయిల్ ప్రక్రియ\x27."
  else if lang = "mr" then
    "नमस्कार! मी न्यायसाथी. भारतीय कायद्यासंबंधी प्रश्न विचारा — कलमे, तरतुदी, खटले किंवा प्रक्रिया. उदा: \x27कलम 21 काय आहे?\x27, \x27बेकायदेशीर ताब्यास उपाय?\x27, किंवा \x27CrPC मधील जामीन प्रक्रिया\x27."
  else if lang = "kn" then
    "ನಮಸ್ಕಾರ! ನಾನು ನ್ಯಾಯಸಾಥಿ. ಭಾರತೀಯ ಕಾನೂನಿನ ಬಗ್ಗೆ ಕೇಳಿ — ಸಂವಿಧಾನ ವಿಧಿಗಳು, ಸೆಕ್ಷನ್‌ಗಳು, ಪ್ರಕರಣಗಳು, ಕ್ರಮಗಳು. ಉದಾ: \x27ಆರ್ಟಿಕಲ್ 21 ಎಂದರೆ?\x27, \x27ಬೇಧಕ ಬಂಧನಕ್ಕೆ ಪರಿಹಾರ?\x27, ಅಥವಾ \x27CrPC ನಲ್ಲಿ ಜಾಮೀನು ಪ್ರಕ್ರಿಯೆ\x27."
  else if lang = "ml" then
    "നമസ്കാരം! ഞാൻ നിയമസാഥി. ഇന്ത്യൻ നിയമത്തെക്കുറിച്ച് ചോദിക്കൂ — അനുച്ഛേദങ്ങൾ, വകുപ്പ്, കേസുകൾ, നടപടിക്രമം. ഉദാ: \x27അനുച്ഛേദം 21 എന്താണ്?\x27, \x27അന്യായ തടങ്കലിന് പരിഹാരം?\x27, \x27CrPC പ്രകാരം ജാമ്യാപേക്ഷ പ്രക്രിയ\x27."
  else if lang = "gu" then
    "નમસ્તે! હું ન્યાયસાથી. ભારતીય કાયદા વિશે પૂછો — કલમો, વિભાગો, કેસો કે પ્રક્રિયા. ઉદાહરણ: \x27કલમ 21 શું છે?\x27, \x27ગેરકાયદે કસ્ટડીમાં ઉપાય?\x27, અથવા \x27CrPCમાં જામીન પ્રક્રિયા\x27."
  else if lang = "pa" then
    "ਸਤ ਸ੍ਰੀ ਅਕਾਲ! ਮੈਂ ਨਿਆਂਸਾਥੀ ਹਾਂ। ਭਾਰਤੀ ਕਾਨੂੰਨ ਬਾਰੇ ਪੁੱਛੋ — ਆਰਟਿਕਲ, ਧਾਰਾਵਾਂ, ਮਾਮਲੇ, ਜ਼ਰੀਏ। ਉਦਾਹਰਨ: \x27ਆਰਟਿਕਲ 21 ਕੀ ਹੈ?\x27, \x27ਗੈਰਕਾਨੂੰਨੀ ਹਿਰਾਸਤ ਦਾ ਉਪਚਾਰ?\x27, ਜਾਂ \x27CrPC ਵਿਚ ਜ਼ਮਾਨਤ ਪ੍ਰਕਿਰਿਆ\x27."
  else if lang = "ur" then
    "سلام! میں نیاے ساتھی ہوں۔ بھارتی قانون سے متعلق سوال پوچھیں — دفعات، شقیں، مقدمات یا طریقہ کار۔ مثال: \x27آرٹیکل 21 کیا ہے؟\x27، \x27غیر قانونی حراست کا علاج؟\x27 یا \x27CrPC میں ضمانت کا طریقہ\x27."
  else if lang = "or" then
    "ନମସ୍କାର! ମୁଁ ନ୍ୟାୟସାଥୀ। ଭାରତୀୟ କାନୁନ ସମ୍ବନ୍ଧୀୟ ପ୍ରଶ୍ନ ପଚାରନ୍ତୁ — ଅନୁଛେଦ, ଧାରା, ମାମଲା, ପ୍ରକ୍ରିୟା। ଉଦାହରଣ: \x27ଅନୁଛେଦ 21 କ\x27ଣ?\x27, \x27ବେଆଇନ ହିରାସତରେ ଉପାୟ?\x27, କିମ୍ବା \x27CrPC ରେ ଜାମିନ ପ୍ରକ୍ରିୟା\x27."
  else "Hello! I’m NyaySaathi. Ask me about Indian law – articles, sections, cases, or procedures. For example: ‘What is Article 21?’, ‘Remedy for wrongful detention?’, or ‘Bail process under CrPC’."

/-- `_guidance_message(lang, transient)`: localized guidance/fallback text. -/
def guidanceMessage (lang : String) (transient : Bool) : String :=
  if lang = "hi" then
    "क्षमा करें, अभी आवश्यक जानकारी उपलब्ध नहीं है। आधिकारिक स्रोत देखें:\n- India Code: https://www.indiacode.nic.in/\n- विधि विभाग (Legislative Dept.): https://legislative.gov.in"
  else if lang = "bn" then
    "দুঃখিত, প্রয়োজনীয় তথ্য এই মুহূর্তে নেই। সরকারি উৎস দেখুন:\n- India Code: https://www.indiacode.nic.in/\n- আইন বিভাগ (Legislative Dept.): https://legislative.gov.in"
  else if lang = "ta" then
    "மன்னிக்கவும், இப்போது தேவையான தகவல் இல்லை. அதிகாரப்பூர்வ மூலங்களைப் பார்க்கவும்:\n- India Code: https://www.indiacode.nic.in/\n- Legislative Dept.: https://legislative.gov.in"
  else if lang = "te" then
    "క్షమించండి, ప్రస్తుతం అవసరమైన సమాచారం లేదు. అధికారిక వనరులు చూడండి:\n- India Code: https://www.indiacode.nic.in/\n- Legislative Dept.: https://legislative.gov.in"
  else if lang = "mr" then
    "क्षमस्व, आवश्यक माहिती सध्या उपलब्ध नाही. अधिकृत स्रोत पहा:\n- India Code: https://www.indiacode.nic.in/\n- विधी विभाग (Legislative Dept.): https://legislative.gov.in"
  else if lang = "kn" then
    "ಕ್ಷಮಿಸಿ, ಅಗತ್ಯ ಮಾಹಿತಿಯು ಈಗ ಲಭ್ಯವಿಲ್ಲ. ಅಧಿಕೃತ ಮೂಲಗಳನ್ನು ನೋಡಿ:\n- India Code: https://www.indiacode.nic.in/\n- Legislative Dept.: https://legislative.gov.in"
  else if lang = "ml" then
    "ക്ഷമിക്കണം, ആവശ്യമായ വിവരം ഇപ്പോൾ ലഭ്യമല്ല. ഔദ്യോഗിക ഉറവിടങ്ങൾ കാണുക:\n- India Code: https://www.indiacode.nic.in/\n- Legislative Dept.: https://legislative.gov.in"
  else if lang = "gu" then
    "માફ કરશો, જરૂરી માહિતી હાલ ઉપલબ્ધ નથી. સત્તાવાર સ્ત્રોત જુઓ:\n- India Code: https://www.indiacode.nic.in/\n- Legislative Dept.: https://legislative.gov.in"
  else if lang = "pa" then
    "ਮਾਫ ਕਰਨਾ, ਲੋੜੀਂਦੀ ਜਾਣਕਾਰੀ ਇਸ ਸਮੇਂ ਉਪਲਬਧ ਨਹੀਂ। ਸਰਕਾਰੀ ਸਰੋਤ ਵੇਖੋ:\n- India Code: https://www.indiacode.nic.in/\n- Legislative Dept.: https://legislative.gov.in"
  else if lang = "ur" then
    "معاف کیجیے، مطلوبہ معلومات فی الحال دستیاب نہیں۔ سرکاری ذرائع دیکھیں:\n- India Code: https://www.indiacode.nic.in/\n- Legislative Dept.: https://legislative.gov.in"
  else if lang = "or" then
    "ମାପ କରନ୍ତୁ, ଆବଶ୍ୟକ ତଥ୍ୟ ବର୍ତ୍ତମାନ ଉପଲବ୍ଧ ନାହିଁ। ଅଧିକୃତ ସ୍ରୋତ ଦେଖନ୍ତୁ:\n- India Code: https://www.indiacode.nic.in/\n- Legislative Dept.: https://legislative.gov.in"
  else
    let base := "Sorry, I don\x27t have the relevant information for your query right now. Please refer to official Government of India legal resources: \n- India Code: https://www.indiacode.nic.in/ (official repository of Central Acts)\n- Legislative Department: https://legislative.gov.in (includes the Constitution of India)"
    if transient then
      pyReplace base "I don\x27t have the relevant information" "I can\x27t complete this"
    else base

/-- The hand-authored English enumeration lines of
`_compose_fundamental_rights_answer`. -/
def composeFrLinesEn : List String :=
  ["A complete list of Fundamental Rights under the Constitution of India (Part III, Arts 12–35):",
   "- Right to Equality — Articles 14–18",
   "- Right to Freedom — Articles 19–22 (includes 21 and 21A)",
   "- Right against Exploitation — Articles 23–24",
   "- Right to Freedom of Religion — Articles 25–28",
   "- Cultural and Educational Rights — Articles 29–30",
   "- Right to Constitutional Remedies — Article 32",
   "",
   "Legal basis: Constitution of India, Part III (Articles 14–18, 19–22 incl. 21 & 21A, 23–24, 25–28, 29–30, 32)"]

def composeFrAnswerEn : String := joinWithStr "\n" composeFrLinesEn

def composeFrLinesHi : List String :=
  ["मौलिक अधिकारों की पूर्ण सूची (भाग III, अनुच्छेद 12–35):",
   "- समानता का अधिकार — अनुच्छेद 14–18",
   "- स्वतंत्रता का अधिकार — अनुच्छेद 19–22 (21 और 21A सहित)",
   "- शोषण के विरुद्ध अधिकार — अनुच्छेद 23–24",
   "- धर्म की स्वतंत्रता का अधिकार — अनुच्छेद 25–28",
   "- सांस्कृतिक और शैक्षिक अधिकार — अनुच्छेद 29–30",
   "- संवैधानिक उपचारों का अधिकार — अनुच्छेद 32",
   "",
   "कानूनी आधार: भारत का संविधान, भाग III (अनुच्छेद 14–18, 19–22 (21 व 21A सहित), 23–24, 25–28, 29–30, 32)"]

def composeFrLinesPa : List String :=
  ["ਮੂਲ ਅਧਿਕਾਰਾਂ ਦੀ ਪੂਰੀ ਸੂਚੀ (ਭਾਗ III, ਅਨੁਛੇਦ 12–35):",
   "- ਬਰਾਬਰੀ ਦਾ ਅਧਿਕਾਰ — ਅਨੁਛੇਦ 14–18",
   "- ਆਜ਼ਾਦੀ ਦਾ ਅਧਿਕਾਰ — ਅਨੁਛੇਦ 19–22 (21 ਅਤੇ 21A ਸਮੇਤ)",
   "- ਸ਼ੋਸ਼ਣ ਖ਼ਿਲਾਫ਼ ਅਧਿਕਾਰ — ਅਨੁਛੇਦ 23–24",
   "- ਧਰਮ ਦੀ ਆਜ਼ਾਦੀ ਦਾ ਅਧਿਕਾਰ — ਅਨੁਛੇਦ 25–28",
   "- ਸੱਭਿਆਚਾਰਕ ਅਤੇ ਸ਼ਿਕਸ਼ਾ ਸੰਬੰਧੀ ਅਧਿਕਾਰ — ਅਨੁਛੇਦ 29–30",
   "- ਸੰਵਿਧਾਨਕ ਉਪਚਾਰਾਂ ਦਾ ਅਧਿਕਾਰ — ਅਨੁਛੇਦ 32",
   "",
   "ਕਾਨੂੰਨੀ ਆਧਾਰ: ਭਾਰਤ ਦਾ ਸੰਵਿਧਾਨ, ਭਾਗ III (ਅਨੁਛੇਦ 14–18, 19–22 (21 ਅਤੇ 21A ਸਮੇਤ), 23–24, 25–28, 29–30, 32)"]

def composeFrLinesBn : List String :=
  ["মৌলিক অধিকারের সম্পূর্ণ তালিকা (পার্ট III, অনুচ্ছেদ ১২–৩৫):",
   "- সমতার অধিকার — অনুচ্ছেদ ১৪–১৮",
   "- স্বাধীনতার অধিকার — অনুচ্ছেদ ১৯–২২ (২১ ও ২১A সহ)",
   "- শোষণবিরোধী অধিকার — অনুচ্ছেদ ২৩–২৪",
   "- ধর্মীয় স্বাধীনতার অধিকার — অনুচ্ছেদ ২৫–২৮",
   "- সাংস্কৃতিক ও শিক্ষাগত অধিকার — অনুচ্ছেদ ২৯–৩০",
   "- সাংবিধানিক প্রতিকার পাওয়ার অধিকার — অনুচ্ছেদ ৩২",
   "",
   "আইনি ভিত্তি: ভারতের সংবিধান, পার্ট III (অনুচ্ছেদ ১৪–১৮, ১৯–২২ (২১ ও ২১A সহ), ২৩–২৪, ২৫–২৮, ২৯–৩০, ৩২)"]

/-- `_compose_fundamental_rights_answer_lang(lang)`: localized list of
Fundamental Rights, falling back to English. -/
def composeFrAnswerLang (lang : String) : String :=
  if lang = "hi" then joinWithStr "\n" composeFrLinesHi
  else if lang = "pa" then joinWithStr "\n" composeFrLinesPa
  else if lang = "bn" then joinWithStr "\n" composeFrLinesBn
  else composeFrAnswerEn

/-- `_compose_right_to_equality_answer` (its argument is unused). -/
def composeRteLines : List String :=
  ["Right to Equality — key points (Articles 14–18):",
   "- Article 14: Equality before law and equal protection of laws; no arbitrariness. Reasonable classification must have intelligible differentia and rational nexus to the objective.",
   "- Article 15: No discrimination by the State on religion, race, caste, sex, place of birth; access to public places protected (15(2)). Special provisions permitted: 15(3) women/children; 15(4), 15(5) SEBC/SC/ST (including admissions; 15(5) excludes minority institutions); 15(6) EWS.",
   "- Article 16: Equality of opportunity in public employment; no discrimination on similar grounds. Specific clauses: 16(3) residence requirements by Parliament; 16(4) reservation for backward classes; 16(4A) promotion reservation for SC/ST (subject to conditions); 16(4B) carry‑forward; 16(5) posts in religious institutions; 16(6) EWS.",
   "- Article 17: Abolition of ‘untouchability’ and its practice in any form; offences punishable (e.g., PCR Act 1955; SC/ST (Prevention of Atrocities) Act 1989).",
   "- Article 18: Abolition of titles (except military/academic distinctions); restrictions on accepting foreign titles/honours, especially for public office holders.",
   "",
   "Legal basis: Constitution of India — Articles 14, 15 (incl. 15(3), 15(4), 15(5), 15(6)), 16 (incl. 16(3), 16(4), 16(4A), 16(4B), 16(5), 16(6)), 17, 18."]

def composeRteAnswer (_userQuery : String) : String := joinWithStr "\n" composeRteLines

end NyaySaathi

namespace NyaySaathi

/-! ## Answer orchestrator (`answer(query, stream)`)

External effects are supplied by an environment `OrcEnv`:
* `search` models `embed_query` + `QdrantStore.search` (uncaught inside
  `retrieve_context`);
* `detectRaw` is the raw LLM output inside `_detect_lang_via_llm` (that
  helper catches its own exceptions and returns `"en"`, so the
  `try/except: pass` around its call in `answer` is unreachable);
* `gen n` is the outcome of the n-th generation-stage `llm.generate`
  call of the request (the retry loops call it at successive indices);
  `streamToks` is the outcome of `llm.stream_generate` (the token list
  yielded, or a raised exception).  The oracle abstracts the provider:
  outcomes do not depend on the prompt payload, so prompt construction
  and context compression (`build_prompt`, `_compress_contexts` — whose
  failures are all caught internally) do not affect the modelled
  observable behaviour;
* `metaDocs` is the metadata store read (`meta_list()`), `markdown` is
  `settings.enable_markdown_rendering`, `links` the loaded link map.

In streaming mode every branch of the generator yields exactly one final
string, so both modes are modelled as producing one `Except Unit String`;
an `.error` is an exception propagated to the caller. -/

structure OrcEnv where
  markdown : Bool
  links : LinkMap
  search : SearchFun
  detectRaw : Except Unit String
  translateToEnRaw : String → Except Unit String
  translateFromEnRaw : String → String → Except Unit String
  metaDocs : Except Unit (List DocMeta)
  gen : Nat → Except Unit String
  streamToks : Except Unit (List String)

/-- `_detect_lang_via_llm`: sanity-filter the raw LLM output; any failure
or invalid code yields `"en"`. -/
def detectLangViaLLM (raw : Except Unit String) : String :=
  match raw with
  | .error _ => "en"
  | .ok out =>
    let code := pyLower (pyStrip out)
    let noHyphen := code.data.filter (fun c => c ≠ '-')
    if 1 ≤ code.length ∧ code.length ≤ 10 ∧ pyIsAscii code = true ∧
        noHyphen ≠ [] ∧ noHyphen.all isAsciiAlpha = true then
      (⟨code.data.takeWhile (fun c => c ≠ '-')⟩ : String)
    else "en"

/-- The language used by the rest of the request (`answer`, lines
474–482): the secondary result overrides the fast path whenever it is
non-empty and different. -/
def computedLang (env : OrcEnv) (query : String) : String :=
  let lang := detectLang query
  let detected := detectLangViaLLM env.detectRaw
  if detected ≠ "" ∧ detected ≠ lang then detected else lang

/-- `_translate_to_english`: failures are swallowed, returning the input. -/
def translateToEnglish (env : OrcEnv) (text : String) : String :=
  if text = "" then text
  else
    match env.translateToEnRaw text with
    | .error _ => text
    | .ok out => pyStrip out

/-- `_translate_from_english`: failures are swallowed. -/
def translateFromEnglish (env : OrcEnv) (text targetLang : String) : String :=
  if text = "" ∨ targetLang = "en" then text
  else
    match env.translateFromEnRaw text targetLang with
    | .error _ => text
    | .ok out => pyStrip out

def MIN_SCORE : ℚ := 0.35

/-- `{d.get("doc_id") for d in meta_list() if d.get("approved") is True}`. -/
def approvedIdsOf (docs : List DocMeta) : List (Option String) :=
  (docs.filter (fun d => d.approved)).map (fun d => d.doc_id)

/-- The filter stage of `answer` (lines 501–511): relevance floor, then
approval gating when the approved set is non-empty; a metadata-store
failure leaves the floor-filtered list unchanged. -/
def strongFilter (contexts : List Hit) (metaRes : Except Unit (List DocMeta)) :
    List Hit :=
  let strong := contexts.filter (fun c => MIN_SCORE ≤ c.score)
  match metaRes with
  | .error _ => strong
  | .ok docs =>
    let approved := approvedIdsOf docs
    if approved ≠ [] then strong.filter (fun c => c.doc_id ∈ approved)
    else strong

/-- Non-stream empty-retrieval ladder (`answer`, lines 536–566): two
free-mode attempts, one more English free-mode attempt, then the
localized guidance message. -/
def emptyStrongNonStream (env : OrcEnv) (lang : String) : String :=
  match env.gen 0 with
  | .ok raw =>
    let fmtEn := cleanLegalResponse raw
    formatOutput env.markdown
      (if lang ≠ "en" then translateFromEnglish env fmtEn lang else fmtEn)
  | .error _ =>
    match env.gen 1 with
    | .ok raw =>
      let fmtEn := cleanLegalResponse raw
      formatOutput env.markdown
        (if lang ≠ "en" then translateFromEnglish env fmtEn lang else fmtEn)
    | .error _ =>
      match env.gen 2 with
      | .ok raw2 => formatOutput env.markdown (cleanLegalResponse raw2)
      | .error _ =>
        formatOutput env.markdown (cleanLegalResponse (guidanceMessage lang false))

/-- Non-stream generation ladder with context (`answer`, lines 624–643):
two attempts, then the transient guidance message. -/
def strongNonStream (env : OrcEnv) (lang : String) : String :=
  match env.gen 0 with
  | .ok raw =>
    let fmtEn := cleanLegalResponse raw
    formatOutput env.markdown
      (if lang ≠ "en" then translateFromEnglish env fmtEn lang else fmtEn)
  | .error _ =>
    match env.gen 1 with
    | .ok raw =>
      let fmtEn := cleanLegalResponse raw
      formatOutput env.markdown
        (if lang ≠ "en" then translateFromEnglish env fmtEn lang else fmtEn)
    | .error _ =>
      formatOutput env.markdown (cleanLegalResponse (guidanceMessage lang true))

/-- Streaming generation ladder (`answer`, lines 580–623): stream, else
two non-stream attempts (not translated back), else one English free-mode
attempt, else the transient guidance message. -/
def strongStream (env : OrcEnv) (lang : String) : String :=
  match env.streamToks with
  | .ok toks =>
    let finalEn := cleanLegalResponse (joinWithStr "" toks)
    formatOutput env.markdown
      (if lang ≠ "en" then translateFromEnglish env finalEn lang else finalEn)
  | .error _ =>
    match env.gen 0 with
    | .ok raw2 => formatOutput env.markdown (cleanLegalResponse raw2)
    | .error _ =>
      match env.gen 1 with
      | .ok raw2 => formatOutput env.markdown (cleanLegalResponse raw2)
      | .error _ =>
        match env.gen 2 with
        | .ok raw3 => formatOutput env.markdown (cleanLegalResponse raw3)
        | .error _ =>
          formatOutput env.markdown (cleanLegalResponse (guidanceMessage lang true))

/-- `answer(query, stream)`.  The streaming generator yields exactly one
string in every branch, so both modes produce one final string; `.error`
is an exception propagated out of `answer` (only `retrieve_context` can
raise — nothing catches it). -/
def answerRun (env : OrcEnv) (query : String) (stream : Bool) :
    Except Unit String :=
  let lang := computedLang env query
  if isSmalltalk query then
    .ok (formatOutput env.markdown (cleanLegalResponse (greetingResponse lang)))
  else
    let searchQuery := if lang ≠ "en" then translateToEnglish env query else query
    match (retrieveContext env.links env.search searchQuery 10).1 with
    | .error e => .error e
    | .ok contexts =>
      let strong := strongFilter contexts env.metaDocs
      let intent := detectIntent query
      if intent.fundamentalRightsAll then
        .ok (formatOutput env.markdown
          (cleanLegalResponse (composeFrAnswerLang lang)))
      else if intent.rightToEquality then
        .ok (formatPlain (composeRteAnswer query))
      else if strong = [] then
        .ok (if stream then
          formatOutput env.markdown
            (cleanLegalResponse (guidanceMessage lang false))
        else emptyStrongNonStream env lang)
      else
        .ok (if stream then strongStream env lang else strongNonStream env lang)

end NyaySaathi

namespace NyaySaathi

theorem exceptOk_exists {α : Type} (e : Except Unit α) (h : e.isOk = true) :
    ∃ x, e = .ok x := by
  cases e with
  | error _ => simp [Except.isOk, Except.toBool] at h
  | ok x => exact ⟨x, rfl⟩

theorem runFanout_ok (search : SearchFun)
    (h : ∀ s k, (search s k).isOk = true) (qs : List (String × Nat)) :
    ∀ st, ∃ r, (runFanout search qs st).1 = .ok r := by
  induction qs with
  | nil => intro st; exact ⟨st, rfl⟩
  | cons hd tl ih =>
    intro st
    obtain ⟨ms, hms⟩ := exceptOk_exists _ (h hd.1 hd.2)
    obtain ⟨r, hr⟩ := ih (addMatches st ms)
    refine ⟨r, ?_⟩
    unfold runFanout
    rw [hms]
    simpa using hr

/-- When no search raises, `retrieve_context` returns (it does not catch
exceptions, but none occur). -/
theorem retrieve_ok (mapping : LinkMap) (search : SearchFun) (q : String)
    (topK : Nat) (h : ∀ s k, (search s k).isOk = true) :
    ∃ l, (retrieveContext mapping search q topK).1 = .ok l := by
  unfold retrieveContext
  cases hint : (detectIntent q).fundamentalRightsAll with
  | true =>
    simp only [hint, if_true]
    obtain ⟨r, hr⟩ := runFanout_ok search h fanoutQueries ([], [])
    cases hrf : runFanout search fanoutQueries ([], []) with
    | mk res tr =>
      rw [hrf] at hr
      cases res with
      | error e => exact absurd hr (by simp)
      | ok st =>
        dsimp only
        split
        · obtain ⟨ms, hms⟩ := exceptOk_exists _ (h combinedFrQuery 12)
          rw [hms]
          exact ⟨_, rfl⟩
        · exact ⟨_, rfl⟩
  | false =>
    simp only [hint, Bool.false_eq_true, if_false]
    obtain ⟨l1, h1⟩ := exceptOk_exists _ (h (pyOrStr (expandQuery q (detectLegalRefs q) mapping).1 q)
      (max topK (if (detectLegalRefs q).has_ref then 5 else 10)))
    obtain ⟨l2, h2⟩ := exceptOk_exists _ (h q (if (detectLegalRefs q).has_ref then 5 else 10))
    obtain ⟨l3, h3⟩ := exceptOk_exists _ (h (pyOrStr (expandQuery q (detectLegalRefs q) mapping).2 q)
      (if (detectLegalRefs q).has_ref then 5 else 10))
    simp only [h1, h2, h3]
    split
    · obtain ⟨l4, h4⟩ := exceptOk_exists _ (h q topK)
      simp only [h4]
      exact ⟨_, rfl⟩
    · exact ⟨_, rfl⟩

end NyaySaathi

namespace NyaySaathi

/-- Every localized guidance message is a non-empty string. -/
theorem guidanceMessage_ne_empty (lang : String) (tr : Bool) :
    guidanceMessage lang tr ≠ "" := by
  unfold guidanceMessage
  split_ifs <;> cases tr <;> decide

/-- C1 (amended).  `answer(query, stream)` never propagates an exception
from the LLM provider: whenever no vector-store/embedder search raises,
the call returns (or yields) some text in both modes; and when every
generation attempt fails (all non-stream attempts error and the stream
errors), for a query that reaches the generation stage the result is the
localized (non-empty) guidance message.  However, exceptions raised by
the embedder or the vector store inside `retrieve_context` do propagate
to the caller (see the counterexample). -/
theorem answer_no_llm_exception_and_guidance (env : OrcEnv) (q : String)
    (st : Bool) :
    ((∀ s k, (env.search s k).isOk = true) →
      (answerRun env q st).isOk = true) ∧
    ((∀ s k, (env.search s k).isOk = true) →
      isSmalltalk q = false →
      (detectIntent q).fundamentalRightsAll = false →
      (detectIntent q).rightToEquality = false →
      (∀ n, env.gen n = .error ()) →
      env.streamToks = .error () →
      ∃ tr, answerRun env q st =
        .ok (formatOutput env.markdown (cleanLegalResponse
          (guidanceMessage (computedLang env q) tr))) ∧
        guidanceMessage (computedLang env q) tr ≠ "") := by
  constructor
  · intro hS
    unfold answerRun
    split
    · rfl
    · obtain ⟨l, hl⟩ := retrieve_ok env.links env.search
        (if computedLang env q ≠ "en" then translateToEnglish env q else q) 10 hS
      simp only [hl]
      split
      · rfl
      · split
        · rfl
        · split <;> rfl
  · intro hS hsm hfr hrte hgen hstream
    unfold answerRun
    simp only [hsm, Bool.false_eq_true, if_false]
    obtain ⟨l, hl⟩ := retrieve_ok env.links env.search
      (if computedLang env q ≠ "en" then translateToEnglish env q else q) 10 hS
    simp only [hl, hfr, hrte, Bool.false_eq_true, if_false]
    split
    · -- filtered set empty
      cases st with
      | true => exact ⟨false, by simp, guidanceMessage_ne_empty _ _⟩
      | false =>
        refine ⟨false, ?_, guidanceMessage_ne_empty _ _⟩
        unfold emptyStrongNonStream
        simp only [hgen]
        simp
    · -- filtered set non-empty
      cases st with
      | true =>
        refine ⟨true, ?_, guidanceMessage_ne_empty _ _⟩
        unfold strongStream
        simp only [hstream, hgen]
        simp
      | false =>
        refine ⟨true, ?_, guidanceMessage_ne_empty _ _⟩
        unfold strongNonStream
        simp only [hgen]
        simp

end NyaySaathi

namespace NyaySaathi

/-- Environment whose vector store raises on every search. -/
def envSearchRaises : OrcEnv :=
  ⟨false, defaultLegalLinks, fun _ _ => .error (), .error (),
   fun _ => .error (), fun _ _ => .error (), .ok [], fun _ => .error (),
   .error ()⟩

/-- Counterexample for C1 as stated: for a non-smalltalk query, an
exception raised by the vector store (or embedder) inside
`retrieve_context` propagates out of `answer` in both modes — nothing
catches it. -/
theorem answer_propagates_retrieval_exception :
    isSmalltalk "what is article 21" = false ∧
    answerRun envSearchRaises "what is article 21" false = .error () ∧
    answerRun envSearchRaises "what is article 21" true = .error () :=
  ⟨by decide, by with_unfolding_all rfl, by with_unfolding_all rfl⟩

/-- Environment with one strong context and every generation attempt
failing. -/
def envAllGenFail : OrcEnv :=
  ⟨true, defaultLegalLinks,
   fun _ _ => .ok [⟨some "d", some 1, some "ctx", 1/2, ⟨[], []⟩⟩],
   .error (), fun _ => .error (), fun _ _ => .error (), .ok [],
   fun _ => .error (), .error ()⟩

/-- Witness for C1 at a concrete input: with a working store but every
generation attempt failing, `answer` returns (no exception) and the
result is the localized guidance message, which is non-empty. -/
theorem answer_no_llm_exception_and_guidance_witness :
    (answerRun envAllGenFail "what is article 21" false).isOk = true ∧
    ∃ tr, answerRun envAllGenFail "what is article 21" false =
      .ok (formatOutput envAllGenFail.markdown (cleanLegalResponse
        (guidanceMessage (computedLang envAllGenFail "what is article 21") tr))) ∧
      guidanceMessage (computedLang envAllGenFail "what is article 21") tr ≠ "" :=
  ⟨(answer_no_llm_exception_and_guidance envAllGenFail "what is article 21"
      false).1 (fun _ _ => rfl),
   (answer_no_llm_exception_and_guidance envAllGenFail "what is article 21"
      false).2 (fun _ _ => rfl) (by decide) (by decide) (by decide)
      (fun _ => rfl) rfl⟩

/-- Environments for the C8 divergence: the secondary language pass
raises, or returns a syntactically invalid code. -/
def envDetectRaise : OrcEnv :=
  ⟨false, defaultLegalLinks, searchNone, .error (), fun _ => .error (),
   fun _ _ => .error (), .ok [], fun _ => .error (), .error ()⟩

def envDetectBad : OrcEnv :=
  ⟨false, defaultLegalLinks, searchNone, .ok "12!", fun _ => .error (),
   fun _ _ => .error (), .ok [], fun _ => .error (), .error ()⟩

/-- C8 (code bug).  `_detect_lang_via_llm` returns `"en"` both when the
LLM raises and when it returns an invalid code; `answer` then treats that
`"en"` as a positive detection (`if detected and detected != lang`) and
overrides a non-English fast-path language.  For the Devanagari query the
fast path detects `"hi"`, yet after a failed secondary pass the language
used is `"en"` — the fast-path value is *not* kept, contradicting the
claim (and the unreachable `except: pass` around the call, which shows
the intended behaviour).  A syntactically valid code (here `" Ta-IN "`,
lowercased and truncated to `"ta"`) does override as specified. -/
theorem secondary_lang_failure_overrides_fast_path :
    detectLang "अनुच्छेद 21 क्या है" = "hi" ∧
    detectLangViaLLM (Except.error ()) = "en" ∧
    detectLangViaLLM (Except.ok "12!") = "en" ∧
    detectLangViaLLM (Except.ok " Ta-IN ") = "ta" ∧
    computedLang envDetectRaise "अनुच्छेद 21 क्या है" = "en" ∧
    computedLang envDetectBad "अनुच्छेद 21 क्या है" = "en" := by
  decide

end NyaySaathi

namespace NyaySaathi

/-- C7.  The filter stage of `answer`: every surviving chunk meets the
0.35 relevance floor; with a successfully loaded non-empty approval set
the floor-passing chunks are further restricted to approved documents
(so all chunks of an unapproved document are excluded); with an empty
approval set the approval filter removes nothing. -/
theorem strong_filter_gating (contexts : List Hit) (docs : List DocMeta) :
    (∀ m : Except Unit (List DocMeta), ∀ c ∈ strongFilter contexts m,
      MIN_SCORE ≤ c.score) ∧
    (approvedIdsOf docs ≠ [] →
      strongFilter contexts (.ok docs) =
        (contexts.filter (fun c => MIN_SCORE ≤ c.score)).filter
          (fun c => c.doc_id ∈ approvedIdsOf docs)) ∧
    (approvedIdsOf docs ≠ [] →
      ∀ c ∈ strongFilter contexts (.ok docs), c.doc_id ∈ approvedIdsOf docs) ∧
    (approvedIdsOf docs = [] →
      strongFilter contexts (.ok docs) =
        contexts.filter (fun c => MIN_SCORE ≤ c.score)) := by
  refine ⟨?_, ?_, ?_, ?_⟩
  · intro m c hc
    unfold strongFilter at hc
    cases m with
    | error e => simpa using (List.mem_filter.mp hc).2
    | ok docs2 =>
      dsimp only at hc
      by_cases hap : approvedIdsOf docs2 ≠ []
      · rw [if_pos hap] at hc
        simpa using (List.mem_filter.mp (List.mem_filter.mp hc).1).2
      · rw [if_neg hap] at hc
        simpa using (List.mem_filter.mp hc).2
  · intro hap
    unfold strongFilter
    dsimp only
    rw [if_pos hap]
  · intro hap c hc
    unfold strongFilter at hc
    dsimp only at hc
    rw [if_pos hap] at hc
    simpa using (List.mem_filter.mp hc).2
  · intro hap
    unfold strongFilter
    dsimp only
    rw [if_neg (by simp [hap])]

/-- Concrete data for the C7 witness: document A approved, document B
not; strong matches from both plus one weak A chunk. -/
def c7DocA : DocMeta := ⟨some "A", true⟩

def c7DocB : DocMeta := ⟨some "B", false⟩

def c7HitStrongA : Hit := ⟨some "A", some 1, some "a1", 4/5, ⟨[], []⟩⟩

def c7HitStrongB : Hit := ⟨some "B", some 2, some "b1", 9/10, ⟨[], []⟩⟩

def c7HitWeakA : Hit := ⟨some "A", some 3, some "a2", 1/5, ⟨[], []⟩⟩

/-- Witness for C7 at a concrete input: the weak A chunk falls below the
floor, every B chunk is excluded by the non-empty approval set, and the
strong A chunk survives; with no approved documents all floor-passing
chunks proceed. -/
theorem strong_filter_gating_witness :
    approvedIdsOf [c7DocA, c7DocB] ≠ [] ∧
    strongFilter [c7HitStrongA, c7HitStrongB, c7HitWeakA]
      (.ok [c7DocA, c7DocB]) = [c7HitStrongA] ∧
    approvedIdsOf [c7DocB] = [] ∧
    strongFilter [c7HitStrongA, c7HitStrongB, c7HitWeakA] (.ok [c7DocB]) =
      [c7HitStrongA, c7HitStrongB] := by
  refine ⟨by decide, ?_, by decide, ?_⟩
  · have h := (strong_filter_gating [c7HitStrongA, c7HitStrongB, c7HitWeakA]
      [c7DocA, c7DocB]).2.1 (by decide)
    exact h.trans (by with_unfolding_all decide)
  · have h := (strong_filter_gating [c7HitStrongA, c7HitStrongB, c7HitWeakA]
      [c7DocB]).2.2.2 (by decide)
    exact h.trans (by with_unfolding_all decide)

end NyaySaathi

namespace NyaySaathi

def frMarkersLatin : List String :=
  ["14–18", "19–22", "21A", "23–24", "25–28", "29–30", "32"]

def frMarkersBengali : List String :=
  ["১৪–১৮", "১৯–২২", "২১A", "২৩–২৪", "২৫–২৮", "২৯–৩০", "৩২"]

/-- C6 (amended).  For every query that triggers the list-all-
fundamental-rights intent *and is not classified as smalltalk* (and a
vector store that does not raise), the orchestrator returns the
deterministic hand-authored enumeration for the detected language — a
value independent of the search results and of every generation oracle,
so the LLM generation step contributes nothing.  The enumeration holds
exactly six category lines in every localization, covers Articles 14–18,
19–22 (incl. 21A), 23–24, 25–28, 29–30 and 32 (Bengali in Bengali
numerals), and falls back to English for unsupported languages. -/
theorem deterministic_fr_enumeration (env : OrcEnv) (q : String) (st : Bool)
    (hS : ∀ s k, (env.search s k).isOk = true)
    (hsm : isSmalltalk q = false)
    (hfr : (detectIntent q).fundamentalRightsAll = true) :
    (answerRun env q st = .ok (formatOutput env.markdown (cleanLegalResponse
      (composeFrAnswerLang (computedLang env q))))) ∧
    (∀ lang, ((pySplitLines (composeFrAnswerLang lang)).filter
      (fun l => listIsPrefix "- ".data l.data)).length = 6) ∧
    (∀ lang, lang ≠ "hi" → lang ≠ "pa" → lang ≠ "bn" →
      composeFrAnswerLang lang = composeFrAnswerEn) ∧
    (frMarkersLatin.all (fun m => strContains composeFrAnswerEn m) = true) ∧
    (frMarkersLatin.all
      (fun m => strContains (composeFrAnswerLang "hi") m) = true) ∧
    (frMarkersLatin.all
      (fun m => strContains (composeFrAnswerLang "pa") m) = true) ∧
    (frMarkersBengali.all
      (fun m => strContains (composeFrAnswerLang "bn") m) = true) := by
  refine ⟨?_, ?_, ?_, by decide, by decide, by decide, by decide⟩
  · unfold answerRun
    simp only [hsm, Bool.false_eq_true, if_false]
    obtain ⟨l, hl⟩ := retrieve_ok env.links env.search
      (if computedLang env q ≠ "en" then translateToEnglish env q else q) 10 hS
    simp only [hl, hfr, if_true]
  · intro lang
    unfold composeFrAnswerLang
    split_ifs <;> decide
  · intro lang h1 h2 h3
    unfold composeFrAnswerLang
    rw [if_neg h1, if_neg h2, if_neg h3]

/-- Environment used by the C6 witness: working empty store, failing
secondary language pass (language stays English). -/
def envC6Wit : OrcEnv :=
  ⟨true, defaultLegalLinks, searchNone, .error (), fun _ => .error (),
   fun _ _ => .error (), .ok [], fun _ => .error (), .error ()⟩

/-- Witness for C6 at a concrete input. -/
theorem deterministic_fr_enumeration_witness :
    answerRun envC6Wit "list all fundamental rights" false =
      .ok (formatOutput envC6Wit.markdown (cleanLegalResponse
        (composeFrAnswerLang (computedLang envC6Wit
          "list all fundamental rights")))) :=
  (deterministic_fr_enumeration envC6Wit "list all fundamental rights" false
    (fun _ _ => rfl) (by decide) (by decide)).1

/-- Environment used by the C6 counterexample: the secondary pass
confirms Hindi. -/
def envC6Cex : OrcEnv :=
  ⟨true, defaultLegalLinks, searchNone, .ok "hi", fun _ => .error (),
   fun _ _ => .error (), .ok [], fun _ => .error (), .error ()⟩

/-- Counterexample for C6 as stated: the romanized-Hindi query
`"mool adhikar"` triggers the list-all-rights intent, but it is also
classified as smalltalk (`"hi"` occurs inside `"adhikar"` and the query
has ≤ 3 alphanumeric tokens), so the orchestrator returns the greeting,
not the deterministic enumeration. -/
theorem deterministic_fr_smalltalk_counterexample :
    (detectIntent "mool adhikar").fundamentalRightsAll = true ∧
    isSmalltalk "mool adhikar" = true ∧
    answerRun envC6Cex "mool adhikar" false =
      .ok (formatOutput true (cleanLegalResponse (greetingResponse "hi"))) ∧
    formatOutput true (cleanLegalResponse (greetingResponse "hi")) ≠
      formatOutput true (cleanLegalResponse (composeFrAnswerLang "hi")) :=
  ⟨by decide, by decide, by with_unfolding_all rfl,
   by with_unfolding_all decide⟩

end NyaySaathi
